import Mathlib

/-!
Verification development for the name-generator repository.

The definitions below are shallow embeddings of the Python sources:
  * `src/apps/worker/src/domain_checker/logic.py` (single-domain check logic),
  * `src/apps/api/src/api/utils.py` (validator, metrics tracker, domain upsert),
  * `src/apps/api/src/api/routes/domain.py` (suggestion orchestrator, batch and
    streaming modes, and the `enqueue_and_wait` dispatcher).

External I/O (DNS, WHOIS, Redis jobs, the LLM) is modelled by explicit oracle
parameters describing the outcome of each call; everything else is translated
directly from the source.  Wall-clock timestamps are modelled by `Nat` values
threaded explicitly; timing fields that no claim mentions are omitted.
-/

/-- Worker-side status strings produced by `check_domain` in
`domain_checker/logic.py`: "free", "registered", "non conclusive"; plus
"invalid" produced by `_check_single_domain` on exceptions. -/
abbrev WorkerStatus := String

/-- List FREE_KEYWORDS from `domain_checker/logic.py`. -/
def FREE_KEYWORDS : List String :=
  [ "no match"
  , "not found"
  , "no entries found"
  , "domain you requested is not known"
  , "status: available"
  , "available for purchase"
  , "status: free"
  , "the queried object does not exist"
  , "no data found" ]

/-- List REGISTERED_KEYWORDS from `domain_checker/logic.py`. -/
def REGISTERED_KEYWORDS : List String :=
  [ "domain name:"
  , "registrar:"
  , "domain status:"
  , "creation date:"
  , "expiry date:"
  , "nameserver:"
  , "name server:"
  , "redacted for privacy" ]

/-- Helper for the Python substring test: does the character list start with
the given pattern. -/
def charsStartWith : List Char → List Char → Bool
  | _, [] => true
  | [], _ :: _ => false
  | c :: cs, k :: ks => if c = k then charsStartWith cs ks else false

/-- Helper for the Python substring test: does the pattern occur anywhere in
the character list. -/
def charsContain : List Char → List Char → Bool
  | [], ks => ks.isEmpty
  | c :: cs, ks => charsStartWith (c :: cs) ks || charsContain cs ks

/-- Python substring test `keyword in text`. -/
def strContains (text keyword : String) : Bool :=
  charsContain text.data keyword.data

/-- Python `str.lower()`, which on the ASCII text handled here lowercases
the 26 uppercase letters. -/
def strToLower (s : String) : String :=
  ⟨s.data.map Char.toLower⟩

/-- Python default `str.strip()` whitespace test (space, tab, newline,
vertical tab, form feed, carriage return). -/
def isSpaceChar (c : Char) : Bool :=
  c = ' ' ∨ c = '\t' ∨ c = '\n' ∨ c.val = 11 ∨ c.val = 12 ∨ c = '\r'

/-- Python `str.strip()` on a character list: drop whitespace from both
ends. -/
def trimChars (l : List Char) : List Char :=
  ((l.dropWhile isSpaceChar).reverse.dropWhile isSpaceChar).reverse

/-- Python `str.split(".")` on a character list: the dot-separated pieces,
keeping empty pieces (`"".split(".") == [""]`). -/
def splitOnDot : List Char → List (List Char)
  | [] => [[]]
  | c :: cs =>
    match splitOnDot cs with
    | [] => [[]]
    | p :: ps => if c = '.' then [] :: p :: ps else (c :: p) :: ps

/-- Function `contains_any_keyword(text, keywords)` from
`domain_checker/logic.py`: `any(keyword in text for keyword in keywords)`. -/
def contains_any_keyword (text : String) (keywords : List String) : Bool :=
  keywords.any (fun keyword => strContains text keyword)

/-- Outcome of the DNS resolution attempt inside `check_domain`
(`dns_lookup_with_timeout` / `socket.gethostbyname`).  `success` means the
name resolved; the error constructors name the exception classes the Python
code distinguishes; `otherError` is any other exception (e.g. `socket.herror`),
which `check_domain` does not catch. -/
inductive DnsOutcome
  | success
  | gaierror
  | valueError
  | unicodeEncodeError
  | timeout
  | otherError
deriving DecidableEq, Repr

/-- Outcome of the `subprocess.run(["whois", domain], ...)` call inside
`check_domain`.  `completed stdout` is a normal exit with the given stdout;
`timedOut cut` is `subprocess.TimeoutExpired` whose `.output` is `cut`
(`none` models Python `None`); `otherError` is any other exception, which the
code catches and logs. -/
inductive WhoisOutcome
  | completed (stdout : String)
  | timedOut (cut : Option String)
  | otherError
deriving DecidableEq, Repr

/-- One external world for a single `check_domain` call: what DNS does and
what WHOIS does for the queried name. -/
structure CheckWorld where
  dns : DnsOutcome
  whois : WhoisOutcome
deriving DecidableEq, Repr

/-- Exceptions that escape `check_domain`: a `UnicodeEncodeError` from DNS is
re-raised explicitly, and any exception class the code does not catch
propagates. -/
inductive CheckErr
  | unicodeEncodeError
  | other
deriving DecidableEq, Repr

/-- Function `check_domain(domain)` from `domain_checker/logic.py`, with the
two external probes replaced by the `CheckWorld` oracle.  The internal
`normalize_domain` call only rewrites the name handed to the probes and does
not affect which branch is taken, so it is not modelled.  The returned string
is the worker status; `Except.error` models a propagating exception. -/
def check_domain (w : CheckWorld) : Except CheckErr WorkerStatus :=
  match w.dns with
  | .success => .ok "registered"
  | .unicodeEncodeError => .error .unicodeEncodeError
  | .timeout => .ok "non conclusive"
  | .otherError => .error .other
  | .gaierror | .valueError =>
    match w.whois with
    | .completed stdout =>
      let whois_output := strToLower stdout
      if contains_any_keyword whois_output FREE_KEYWORDS then .ok "free"
      else if contains_any_keyword whois_output REGISTERED_KEYWORDS then .ok "registered"
      else .ok "non conclusive"
    | .timedOut cut =>
      let cutOutput := strToLower (cut.getD "")
      if contains_any_keyword cutOutput FREE_KEYWORDS then .ok "free"
      else if contains_any_keyword cutOutput REGISTERED_KEYWORDS then .ok "registered"
      else .ok "non conclusive"
    | .otherError => .ok "non conclusive"

/-- Model DomainCheckResult from `domain_checker/logic.py`. -/
structure DomainCheckResult where
  domain : String
  status : WorkerStatus
deriving DecidableEq, Repr

/-- Function `_check_single_domain(domain)` from `domain_checker/logic.py`:
runs `check_domain` and converts every exception into status "invalid",
keeping the original (un-normalized) input as the result's domain. -/
def checkSingleDomain (domain : String) (w : CheckWorld) : DomainCheckResult :=
  match check_domain w with
  | .ok status => ⟨domain, status⟩
  | .error _ => ⟨domain, "invalid"⟩

/-- API-side three-valued domain status, enum DomainStatus from
`api/models/api_models.py`. -/
inductive DomainStatus
  | available
  | registered
  | unknown
deriving DecidableEq, Repr

/-- Function `map_worker_status_to_domain_status(status_value)` from
`api/routes/domain.py`. -/
def map_worker_status_to_domain_status (status_value : String) : DomainStatus :=
  let normalized := strToLower status_value
  if normalized = "free" then .available
  else if normalized = "registered" then .registered
  else if normalized = "invalid" then .unknown
  else .unknown

/-- Function `is_valid_domain(domain)` from `api/utils.py`.  The argument is
always a `String` (the `isinstance` guard is vacuous), `.strip()` is
`String.trim`, the `'�'` and `ord(char) > 127` checks collapse to the
ASCII check (U+FFFD is above 127, and `encode('utf-8')` never fails on
ASCII), and `encode('idna')` on an all-ASCII name succeeds exactly when every
dot-separated label is at most 63 characters (emptiness was already ruled out
by the parts check). -/
def is_valid_domain (domain : String) : Bool :=
  let d := trimChars domain.data
  if d.isEmpty then false
  else if d.any (fun c => c.val > 127) then false
  else if ¬ d.contains '.' then false
  else
    let parts := splitOnDot d
    if parts.any (fun p => (trimChars p).isEmpty) then false
    else if parts.any (fun p => 63 < p.length) then false
    else true

/-- Function `filter_valid_domains(domains)` from `api/utils.py`. -/
def filter_valid_domains (domains : List String) : List String × List String :=
  domains.partition is_valid_domain

/-- In-memory fields of class MetricsTracker from `api/utils.py` that the
persisted record depends on.  Wall-clock timers and token counters are
omitted: no claim mentions them.  `unique_domains` (a Python `set`) is
modelled as a duplicate-free list. -/
structure MetricsTracker where
  retry_count : Nat := 0
  llm_call_count : Nat := 0
  worker_job_count : Nat := 0
  total_domains_generated : Nat := 0
  unique_domains : List String := []
  available_cnt : Nat := 0
  registered_cnt : Nat := 0
  unknown_cnt : Nat := 0
  errors : List String := []
deriving DecidableEq, Repr

/-- Method `MetricsTracker.increment_retry`. -/
def MetricsTracker.incrementRetry (m : MetricsTracker) : MetricsTracker :=
  { m with retry_count := m.retry_count + 1 }

/-- Method `MetricsTracker.increment_llm_call`. -/
def MetricsTracker.incrementLlmCall (m : MetricsTracker) : MetricsTracker :=
  { m with llm_call_count := m.llm_call_count + 1 }

/-- Method `MetricsTracker.increment_worker_job`. -/
def MetricsTracker.incrementWorkerJob (m : MetricsTracker) : MetricsTracker :=
  { m with worker_job_count := m.worker_job_count + 1 }

/-- Set-insert used to model `self.unique_domains.update(domains)`. -/
def setInsert (s : List String) (d : String) : List String :=
  if s.contains d then s else s ++ [d]

/-- Method `MetricsTracker.add_domains_generated(domains)`. -/
def MetricsTracker.addDomainsGenerated (m : MetricsTracker) (domains : List String) :
    MetricsTracker :=
  { m with
    total_domains_generated := m.total_domains_generated + domains.length
    unique_domains := domains.foldl setInsert m.unique_domains }

/-- Method `MetricsTracker.add_domain_status(status)`. -/
def MetricsTracker.addDomainStatus (m : MetricsTracker) (status : DomainStatus) :
    MetricsTracker :=
  match status with
  | .available => { m with available_cnt := m.available_cnt + 1 }
  | .registered => { m with registered_cnt := m.registered_cnt + 1 }
  | .unknown => { m with unknown_cnt := m.unknown_cnt + 1 }

/-- Method `MetricsTracker.add_error(error)`. -/
def MetricsTracker.addError (m : MetricsTracker) (error : String) : MetricsTracker :=
  { m with errors := m.errors ++ [error] }

/-- Fields of the persisted SuggestionMetrics row (model SuggestionMetrics in
`api/models/db_models.py`) that `MetricsTracker.save` computes and some claim
mentions.  `success_rate` is a float column, modelled as a rational. -/
structure SuggestionMetricsRow where
  retry_count : Nat
  llm_call_count : Nat
  worker_job_count : Nat
  total_domains_generated : Nat
  unique_domains_generated : Nat
  domains_returned : Nat
  available_domains_count : Nat
  registered_domains_count : Nat
  unknown_domains_count : Nat
  success_rate : ℚ
  reached_target : Bool
  error_count : Nat
deriving DecidableEq, Repr

/-- Method `MetricsTracker.save(suggestion_id, requested_count)` from
`api/utils.py`, restricted to the fields of the persisted row above.
Note the source computes `available_count / requested_count if
requested_count > 0 else 0.0` with no clamping. -/
def MetricsTracker.save (m : MetricsTracker) (requested_count : Nat) :
    SuggestionMetricsRow :=
  let available_count := m.available_cnt
  let success_rate : ℚ :=
    if 0 < requested_count then (available_count : ℚ) / (requested_count : ℚ) else 0
  { retry_count := m.retry_count
    llm_call_count := m.llm_call_count
    worker_job_count := m.worker_job_count
    total_domains_generated := m.total_domains_generated
    unique_domains_generated := m.unique_domains.length
    domains_returned := m.unique_domains.length
    available_domains_count := m.available_cnt
    registered_domains_count := m.registered_cnt
    unknown_domains_count := m.unknown_cnt
    success_rate := success_rate
    reached_target := requested_count ≤ available_count
    error_count := m.errors.length }

/-- Persistent domain record, model Domain in `api/models/db_models.py`,
restricted to the fields `upsert_domain_in_db` reads or writes.  Timestamps
are modelled as `Nat`; `suggestion_id` is the nullable foreign key. -/
structure DomainRecord where
  domain : String
  domain_name : String
  tld : String
  status : DomainStatus
  last_checked : Option Nat
  created_at : Nat
  updated_at : Nat
  suggestion_id : Option Nat
deriving DecidableEq, Repr

/-- Python truthiness of the nullable integer column `suggestion_id`:
`None` and `0` are falsy, any other integer is truthy. -/
def pyTruthyOptNat : Option Nat → Bool
  | none => false
  | some n => n ≠ 0

/-- Function `upsert_domain_in_db(domain, status, suggestion_id)` from
`api/utils.py`.  `existing` is the result of the `get_or_none` lookup for
`domain`; `parts` is the `(domain_name, tld)` pair `extract_domain_parts`
returns (an external `tldextract` call, only used when creating a new row);
`now` is `datetime.datetime.now`.  Returns the saved record. -/
def upsert_domain_in_db (existing : Option DomainRecord) (parts : String × String)
    (now : Nat) (domain : String) (status : DomainStatus) (suggestion_id : Nat) :
    DomainRecord :=
  match existing with
  | some obj =>
    { obj with
      status := status
      last_checked := some now
      updated_at := now
      suggestion_id :=
        if pyTruthyOptNat obj.suggestion_id then obj.suggestion_id else some suggestion_id }
  | none =>
    { domain := domain
      domain_name := parts.1
      tld := parts.2
      status := status
      last_checked := some now
      created_at := now
      updated_at := now
      suggestion_id := some suggestion_id }

/-- Per-request suggestion record, model DomainSuggestion from
`api/models/api_models.py`.  `created_at`/`updated_at` carry the pass
timestamp (`datetime.now` at the start of each processing pass). -/
structure DomainSuggestion where
  domain : String
  tld : String
  status : DomainStatus
  created_at : Nat
  updated_at : Nat
deriving DecidableEq, Repr

/-- Construction `DomainSuggestion(domain=..., tld=domain.split(".")[-1],
status=..., created_at=now, updated_at=now)` used by both orchestrators. -/
def mkSuggestion (domain : String) (status : DomainStatus) (now : Nat) :
    DomainSuggestion :=
  { domain := domain
    tld := String.mk ((splitOnDot domain.data).getLastD [])
    status := status
    created_at := now
    updated_at := now }

/-- Lookup in the `accumulated_lookup` dict, modelled as an association
list keyed by fqdn (dict keys are unique, so the first binding is the
binding). -/
def dictGet : List (String × DomainSuggestion) → String → Option DomainSuggestion
  | [], _ => none
  | p :: ps, k => if p.1 = k then some p.2 else dictGet ps k

/-- Assignment `accumulated_lookup[domain] = suggestion`: replace the
existing binding if present, otherwise append a new one. -/
def dictSet : List (String × DomainSuggestion) → String → DomainSuggestion →
    List (String × DomainSuggestion)
  | [], k, v => [(k, v)]
  | p :: ps, k, v => if p.1 = k then (k, v) :: ps else p :: dictSet ps k v

/-- Replacement loop `for idx, item in enumerate(accumulated): if item.domain
== domain: accumulated[idx] = suggestion; break` from both orchestrators. -/
def replaceFirst : List DomainSuggestion → String → DomainSuggestion →
    List DomainSuggestion
  | [], _, _ => []
  | x :: xs, d, s => if x.domain = d then s :: xs else x :: replaceFirst xs d s

/-- Mutable per-request orchestrator state shared by the batch and streaming
suggestion loops in `api/routes/domain.py`: `accumulated`,
`accumulated_lookup`, `available_count`, `domains_to_store`, `retries`. -/
structure OrchState where
  accumulated : List DomainSuggestion := []
  lookup : List (String × DomainSuggestion) := []
  availableCount : Nat := 0
  domainsToStore : List (String × DomainStatus) := []
  retries : Nat := 0
deriving DecidableEq, Repr

/-- Body of `for domain in plain_domains` in the batch `suggest` handler
(routes/domain.py, one candidate).  `statusLookup` is the `status_lookup`
dict built from the dispatcher results; `now` is the pass timestamp. -/
def processDomainBatch (requested_count : Nat)
    (statusLookup : String → Option String) (now : Nat)
    (sm : OrchState × MetricsTracker) (domain : String) :
    OrchState × MetricsTracker :=
  let st := sm.1
  let m := sm.2
  let status_enum := map_worker_status_to_domain_status ((statusLookup domain).getD "unknown")
  let suggestion := mkSuggestion domain status_enum now
  let st := { st with domainsToStore := st.domainsToStore ++ [(domain, status_enum)] }
  let m := m.addDomainStatus status_enum
  match dictGet st.lookup domain with
  | some existing =>
    if existing.status ≠ DomainStatus.available ∧ status_enum = DomainStatus.available then
      ({ st with
          accumulated := replaceFirst st.accumulated domain suggestion
          lookup := dictSet st.lookup domain suggestion
          availableCount := st.availableCount + 1 }, m)
    else (st, m)
  | none =>
    if status_enum = DomainStatus.available ∧ requested_count ≤ st.availableCount then
      (st, m)
    else
      let st := { st with
        accumulated := st.accumulated ++ [suggestion]
        lookup := dictSet st.lookup domain suggestion }
      (if status_enum = DomainStatus.available then
        { st with availableCount := st.availableCount + 1 }
       else st, m)

/-- One full candidate-processing pass of the batch orchestrator. -/
def runPassBatch (requested_count : Nat) (statusLookup : String → Option String)
    (now : Nat) (st : OrchState) (m : MetricsTracker) (plain_domains : List String) :
    OrchState × MetricsTracker :=
  plain_domains.foldl (processDomainBatch requested_count statusLookup now) (st, m)

/-- Retry loop of the batch `suggest` handler.  `llm k` is the candidate list
returned by the k-th `GroqSuggestor().generate` call; `check k` is the
`status_lookup` mapping built from the k-th `enqueue_and_wait` call (`none`
models a domain absent from the results, defaulted to "unknown").  The fuel
argument bounds the recursion; `max_retries` fuel is always enough because
every non-breaking iteration increments `retries`. -/
def suggestIterBatch (requested_count max_retries : Nat) (llm : Nat → List String)
    (check : Nat → String → Option String) :
    Nat → OrchState × MetricsTracker → OrchState × MetricsTracker
  | 0, sm => sm
  | fuel + 1, sm =>
    let st := sm.1
    let m := sm.2
    if st.retries < max_retries then
      let k := m.llm_call_count
      let m := m.incrementLlmCall
      let plain_domains := llm k
      let m := m.addDomainsGenerated plain_domains
      let m := m.incrementWorkerJob
      let stm := runPassBatch requested_count (check k) k st m plain_domains
      if requested_count ≤ stm.1.availableCount then stm
      else suggestIterBatch requested_count max_retries llm check fuel
        ({ stm.1 with retries := stm.1.retries + 1 }, stm.2.incrementRetry)
    else sm

/-- Handler-level `requested_count` computation
`request.count or RequestDomainSuggestion.model_fields["count"].default`:
Python `or` replaces a falsy count (0) by the field default 10. -/
def effectiveRequestedCount (count : Nat) : Nat :=
  if count = 0 then 10 else count

/-- Pydantic validation of RequestDomainSuggestion.count
(`Field(default=10, ge=1, le=100)` in `api/models/api_models.py`). -/
def requestCountOk (count : Int) : Bool :=
  1 ≤ count ∧ count ≤ 100

/-- Batch `suggest` handler from `api/routes/domain.py`: computes
`requested_count` and `max_retries = max(1, settings.max_suggestions_retries)`
and runs the retry loop from the empty state. -/
def suggest (count : Nat) (cfg_max_retries : Nat) (llm : Nat → List String)
    (check : Nat → String → Option String) : OrchState × MetricsTracker :=
  let requested_count := effectiveRequestedCount count
  let max_retries := max 1 cfg_max_retries
  suggestIterBatch requested_count max_retries llm check max_retries
    ({}, {})

/-- Server-sent events emitted by the streaming orchestrator
(`suggest_stream` in `api/routes/domain.py`), with the payload fields the
claims mention. -/
inductive StreamEvent
  | start (requested_count max_retries : Nat)
  | new (s : DomainSuggestion) (available_count total : Nat)
  | update (s : DomainSuggestion) (available_count total : Nat)
  | complete (suggestions : List DomainSuggestion) (available_count total : Nat)
deriving DecidableEq, Repr

/-- Body of `for domain in plain_domains` in `suggest_stream` (one
candidate): candidates neither in `domains_to_check` nor in the accumulator
are skipped outright; otherwise the logic matches the batch handler but
emits a `suggestions` SSE event on every accepted new entry or upgrade.
The immediate `upsert_domain_in_db` calls are persistence side effects with
no influence on this state and are modelled separately. -/
def processDomainStream (requested_count : Nat) (domains_to_check : List String)
    (statusLookup : String → Option String) (now : Nat)
    (sme : OrchState × MetricsTracker × List StreamEvent) (domain : String) :
    OrchState × MetricsTracker × List StreamEvent :=
  let st := sme.1
  let m := sme.2.1
  let evs := sme.2.2
  if ¬ domains_to_check.contains domain ∧ (dictGet st.lookup domain).isNone then
    sme
  else
    let status_enum := map_worker_status_to_domain_status ((statusLookup domain).getD "unknown")
    let suggestion := mkSuggestion domain status_enum now
    let st := { st with domainsToStore := st.domainsToStore ++ [(domain, status_enum)] }
    let m := m.addDomainStatus status_enum
    match dictGet st.lookup domain with
    | some existing =>
      if existing.status ≠ DomainStatus.available ∧ status_enum = DomainStatus.available then
        let st := { st with
          accumulated := replaceFirst st.accumulated domain suggestion
          lookup := dictSet st.lookup domain suggestion
          availableCount := st.availableCount + 1 }
        (st, m, evs ++ [StreamEvent.update suggestion st.availableCount st.accumulated.length])
      else (st, m, evs)
    | none =>
      if status_enum = DomainStatus.available ∧ requested_count ≤ st.availableCount then
        (st, m, evs)
      else
        let st := { st with
          accumulated := st.accumulated ++ [suggestion]
          lookup := dictSet st.lookup domain suggestion }
        let st :=
          if status_enum = DomainStatus.available then
            { st with availableCount := st.availableCount + 1 }
          else st
        (st, m, evs ++ [StreamEvent.new suggestion st.availableCount st.accumulated.length])

/-- One full candidate-processing pass of the streaming orchestrator. -/
def runPassStream (requested_count : Nat) (domains_to_check : List String)
    (statusLookup : String → Option String) (now : Nat) (st : OrchState)
    (m : MetricsTracker) (evs : List StreamEvent) (plain_domains : List String) :
    OrchState × MetricsTracker × List StreamEvent :=
  plain_domains.foldl (processDomainStream requested_count domains_to_check statusLookup now)
    (st, m, evs)

/-- Retry loop of `suggest_stream`: same loop as the batch handler except
that each pass first filters `plain_domains` down to `domains_to_check`
(dropping candidates already accumulated as available), counts a retry and
continues when nothing is left to check, and emits events. -/
def suggestIterStream (requested_count max_retries : Nat) (llm : Nat → List String)
    (check : Nat → String → Option String) :
    Nat → OrchState × MetricsTracker × List StreamEvent →
    OrchState × MetricsTracker × List StreamEvent
  | 0, sme => sme
  | fuel + 1, sme =>
    let st := sme.1
    let m := sme.2.1
    let evs := sme.2.2
    if st.retries < max_retries then
      let k := m.llm_call_count
      let m := m.incrementLlmCall
      let plain_domains := llm k
      let m := m.addDomainsGenerated plain_domains
      let domains_to_check := plain_domains.filter (fun d =>
        match dictGet st.lookup d with
        | none => true
        | some s => s.status ≠ DomainStatus.available)
      if domains_to_check.isEmpty then
        suggestIterStream requested_count max_retries llm check fuel
          ({ st with retries := st.retries + 1 }, m.incrementRetry, evs)
      else
        let m := m.incrementWorkerJob
        let sme := runPassStream requested_count domains_to_check (check k) k st m evs plain_domains
        if requested_count ≤ sme.1.availableCount then sme
        else suggestIterStream requested_count max_retries llm check fuel
          ({ sme.1 with retries := sme.1.retries + 1 }, sme.2.1.incrementRetry, sme.2.2)
    else sme

/-- Streaming `suggest_stream` handler: computes `requested_count` and
`max_retries` as the batch handler does, emits `start`, runs the loop, then
emits `complete` with the final accumulator. -/
def suggest_stream (count : Nat) (cfg_max_retries : Nat) (llm : Nat → List String)
    (check : Nat → String → Option String) :
    OrchState × MetricsTracker × List StreamEvent :=
  let requested_count := effectiveRequestedCount count
  let max_retries := max 1 cfg_max_retries
  let res := suggestIterStream requested_count max_retries llm check max_retries
    ({}, {}, [StreamEvent.start requested_count max_retries])
  (res.1, res.2.1,
    res.2.2 ++ [StreamEvent.complete res.1.accumulated res.1.availableCount res.1.accumulated.length])

/-- Enqueue loop of `enqueue_and_wait`, successfully enqueued side: the
sublist of `(index, domain)` pairs of valid domains whose enqueue succeeded
within the three attempts (`enqOk i` tells whether the job for the i-th
valid domain was eventually enqueued). -/
def enqueueJobs (enqOk : Nat → Bool) : Nat → List String → List (Nat × String)
  | _, [] => []
  | i, d :: ds =>
    if enqOk i then (i, d) :: enqueueJobs enqOk (i + 1) ds
    else enqueueJobs enqOk (i + 1) ds

/-- Enqueue loop of `enqueue_and_wait`, failure side: the `{"domain": d,
"status": "unknown"}` entries appended for valid domains whose enqueue
failed after all retries. -/
def enqueueFails (enqOk : Nat → Bool) : Nat → List String → List (String × String)
  | _, [] => []
  | i, d :: ds =>
    if enqOk i then enqueueFails enqOk (i + 1) ds
    else (d, "unknown") :: enqueueFails enqOk (i + 1) ds

/-- Harvest step of `_wait_for_jobs_results`: the finished jobs' dict
results, in job order (`jobRes i = some s` when the job for valid domain i
finished before the deadline with a dict result of status `s`; `none` for
failed jobs, jobs pending at the deadline, and non-dict results, all of
which are dropped). -/
def harvestJobs (jobRes : Nat → Option String) (jobs : List (Nat × String)) :
    List (String × String) :=
  jobs.filterMap (fun p => (jobRes p.1).map (fun s => (p.2, s)))

/-- Function `enqueue_and_wait(domains)` from `api/routes/domain.py`, as a
list of `(domain, status)` result entries.  `enqOk i` says whether the job
for the i-th valid domain could be enqueued; `jobRes i = some s` says that
job finished before the deadline with a dict result of status `s` (the worker
always reports back the job's own domain), while `none` covers failed jobs,
jobs still pending at the deadline, and non-dict results, all of which are
dropped by `_wait_for_jobs_results`; `timeout` is
`settings.rq_job_timeout_seconds`.  Queue snapshots and worker-metrics
updates are fire-and-forget persistence and do not affect the result. -/
def enqueue_and_wait (enqOk : Nat → Bool) (jobRes : Nat → Option String)
    (timeout : Int) (domains : List String) : List (String × String) :=
  if domains.isEmpty then []
  else
    let valid_domains := (filter_valid_domains domains).1
    let invalid_domains := (filter_valid_domains domains).2
    let results0 := invalid_domains.map (fun d => (d, "invalid"))
    if valid_domains.isEmpty then results0
    else
      let jobs := enqueueJobs enqOk 0 valid_domains
      let results1 := results0 ++ enqueueFails enqOk 0 valid_domains
      if timeout ≤ 0 ∨ jobs.isEmpty then results1
      else
        let harvested := harvestJobs jobRes jobs
        let results2 := results1 ++ harvested
        let processed := results2.map Prod.fst
        results2 ++
          (valid_domains.filter (fun d => ¬ processed.contains d)).map
            (fun d => (d, "unknown"))

/-- Example LLM oracle: the candidate list of spec scenario 1 (every pass
returns the same four names). -/
def exLlmBerlin : Nat → List String :=
  fun _ => ["trattoriaberlin.de", "pastaberlin.de", "romaberlin.de", "napoliberlin.de"]

/-- Example dispatcher oracle for scenario 1: the fourth name is registered,
the others are free. -/
def exChkBerlin : Nat → String → Option String :=
  fun _ d => if d = "napoliberlin.de" then some "registered" else some "free"

/-- Example LLM oracle that regenerates the same single candidate on every
pass. -/
def exLlmRepeat : Nat → List String := fun _ => ["ab.com"]

/-- Example dispatcher oracle reporting every domain as registered. -/
def exChkRegistered : Nat → String → Option String := fun _ _ => some "registered"

/-- Example enqueue oracle: every enqueue attempt succeeds. -/
def allEnqOk : Nat → Bool := fun _ => true

/-- Example enqueue oracle: only the first valid domain's enqueue succeeds. -/
def exEnqFirstOnly : Nat → Bool := fun i => i = 0

/-- Example job oracle: only the first job is harvested (status "free");
every other job misses the deadline. -/
def exJobFirstFree : Nat → Option String := fun i => if i = 0 then some "free" else none

/-- Example job oracle: every job is harvested with status "free". -/
def exJobAllFree : Nat → Option String := fun _ => some "free"

/-- Example tracker state reachable by recording three available domains
(e.g. one new available plus two upgrades after the target was reached). -/
def exTracker3 : MetricsTracker :=
  ((({} : MetricsTracker).addDomainStatus .available).addDomainStatus
    .available).addDomainStatus .available

/-- Example pre-existing domain record whose suggestion link is already set. -/
def exRecordLinked : DomainRecord :=
  { domain := "ab.com"
    domain_name := "ab"
    tld := "com"
    status := .registered
    last_checked := some 5
    created_at := 1
    updated_at := 5
    suggestion_id := some 7 }

/-- Example accumulator entry: "foo.com" recorded with status unknown. -/
def exSugFooUnknown : DomainSuggestion := mkSuggestion "foo.com" .unknown 0

/-- Example accumulator entry: "a.com" recorded with status available. -/
def exSugAvail : DomainSuggestion := mkSuggestion "a.com" .available 0

/-- Example orchestrator state: "foo.com" accumulated as unknown while the
available-slot cap is already filled (`available_count = 2`). -/
def exStateCapped : OrchState :=
  { accumulated := [exSugFooUnknown]
    lookup := [("foo.com", exSugFooUnknown)]
    availableCount := 2
    domainsToStore := [("foo.com", .unknown)]
    retries := 1 }

/-- Example orchestrator state: "a.com" accumulated as available. -/
def exStateAvail : OrchState :=
  { accumulated := [exSugAvail]
    lookup := [("a.com", exSugAvail)]
    availableCount := 1
    domainsToStore := [("a.com", .available)]
    retries := 0 }

/-- Example status lookup reporting every domain free. -/
def exLookupFree : String → Option String := fun _ => some "free"

/-- Sum of the three per-status counters of a tracker. -/
def statusSum (m : MetricsTracker) : Nat :=
  m.available_cnt + m.registered_cnt + m.unknown_cnt

/-- Structural accumulator invariant of both orchestrators: the
`accumulated_lookup` dict holds exactly the entries of `accumulated`, keyed
by fqdn.  It holds for the empty initial state and is preserved by every
candidate-processing step. -/
def OrchInv (st : OrchState) : Prop :=
  st.lookup = st.accumulated.map (fun s => (s.domain, s))

/-- Helper: binding of a key other than the one being set is unchanged. -/
theorem dictGet_dictSet_ne (l : List (String × DomainSuggestion)) (k d : String)
    (v : DomainSuggestion) (h : k ≠ d) : dictGet (dictSet l k v) d = dictGet l d := by
  induction l with
  | nil => simp [dictGet, dictSet, h]
  | cons p ps ih =>
    by_cases hp : p.1 = k
    · simp [dictGet, dictSet, hp, h]
    · simp [dictGet, dictSet, hp, ih]

/-- Helper: setting an absent key appends the binding. -/
theorem dictSet_of_none (l : List (String × DomainSuggestion)) (k : String)
    (v : DomainSuggestion) (h : dictGet l k = none) : dictSet l k v = l ++ [(k, v)] := by
  induction l with
  | nil => simp [dictSet]
  | cons p ps ih =>
    by_cases hp : p.1 = k
    · simp [dictGet, hp] at h
    · simp [dictGet, hp] at h
      simp [dictSet, hp, ih h]

/-- Helper: dict lookup over the canonical image of the accumulator list is
`find?` by fqdn. -/
theorem dictGet_map (l : List DomainSuggestion) (d : String) :
    dictGet (l.map (fun s => (s.domain, s))) d = l.find? (fun s => s.domain = d) := by
  induction l with
  | nil => simp [dictGet]
  | cons x xs ih =>
    by_cases hx : x.domain = d
    · simp [dictGet, List.find?, hx]
    · simp [dictGet, List.find?, hx, ih]

/-- Helper: when the key is bound, setting it in the dict mirrors replacing
the first matching entry of the accumulator list. -/
theorem dictSet_map_replaceFirst (l : List DomainSuggestion) (d : String)
    (s : DomainSuggestion) (hs : s.domain = d)
    (h : dictGet (l.map (fun s => (s.domain, s))) d ≠ none) :
    dictSet (l.map (fun s => (s.domain, s))) d s
      = (replaceFirst l d s).map (fun s => (s.domain, s)) := by
  induction l with
  | nil => simp [dictGet] at h
  | cons x xs ih =>
    by_cases hx : x.domain = d
    · simp [dictSet, replaceFirst, hx, hs]
    · simp [dictGet, hx] at h
      simp [dictSet, replaceFirst, hx, ih h]

/-- Helper: replacing an entry keeps the accumulator length. -/
theorem replaceFirst_length (l : List DomainSuggestion) (d : String)
    (s : DomainSuggestion) : (replaceFirst l d s).length = l.length := by
  induction l with
  | nil => rfl
  | cons x xs ih =>
    by_cases hx : x.domain = d
    · simp [replaceFirst, hx]
    · simp [replaceFirst, hx, ih]

/-- C10: for every input string and every outcome of the external probes,
the worker's `_check_single_domain` returns a result whose domain equals the
input and whose status is one of "free", "registered", "non conclusive" or
"invalid", and whenever `check_domain` raises (including the re-raised
Unicode/IDNA encoding error) the result's status is "invalid". -/
theorem C10_check_single_domain_total (domain : String) (w : CheckWorld) :
    (checkSingleDomain domain w).domain = domain
    ∧ ((checkSingleDomain domain w).status = "free"
      ∨ (checkSingleDomain domain w).status = "registered"
      ∨ (checkSingleDomain domain w).status = "non conclusive"
      ∨ (checkSingleDomain domain w).status = "invalid")
    ∧ (∀ e : CheckErr, check_domain w = .error e →
        (checkSingleDomain domain w).status = "invalid") := by
  obtain ⟨dns, whois⟩ := w
  refine ⟨?_, ?_, ?_⟩ <;>
    cases dns <;> cases whois <;>
      simp [checkSingleDomain, check_domain] <;> split_ifs <;> simp

/-- Witness for C10 at a concrete input: the Unicode-encoding-error world
makes `check_domain` raise and `_check_single_domain` answer "invalid". -/
theorem C10_check_single_domain_total_witness :
    (checkSingleDomain "ab.com" ⟨.unicodeEncodeError, .otherError⟩).status = "invalid" :=
  (C10_check_single_domain_total "ab.com" ⟨.unicodeEncodeError, .otherError⟩).2.2
    .unicodeEncodeError rfl

/-- C4: `check_domain` follows the specified case analysis: DNS success
returns "registered"; DNS timeout returns "non conclusive" whatever WHOIS
would have said (WHOIS is never invoked); on DNS `gaierror` the lowercased
WHOIS output is scanned against the free-indicator keywords first (match
returns "free"), then the registered-indicator keywords (match returns
"registered"), and the same two scans are applied to the partial stdout of a
timed-out WHOIS call; in every remaining case it returns "non conclusive". -/
theorem C4_check_domain_case_analysis :
    (∀ wo : WhoisOutcome, check_domain ⟨.success, wo⟩ = .ok "registered")
    ∧ (∀ wo : WhoisOutcome, check_domain ⟨.timeout, wo⟩ = .ok "non conclusive")
    ∧ (∀ out : String, contains_any_keyword (strToLower out) FREE_KEYWORDS = true →
        check_domain ⟨.gaierror, .completed out⟩ = .ok "free")
    ∧ (∀ out : String, contains_any_keyword (strToLower out) FREE_KEYWORDS = false →
        contains_any_keyword (strToLower out) REGISTERED_KEYWORDS = true →
        check_domain ⟨.gaierror, .completed out⟩ = .ok "registered")
    ∧ (∀ out : String, contains_any_keyword (strToLower out) FREE_KEYWORDS = false →
        contains_any_keyword (strToLower out) REGISTERED_KEYWORDS = false →
        check_domain ⟨.gaierror, .completed out⟩ = .ok "non conclusive")
    ∧ (∀ cut : Option String,
        contains_any_keyword (strToLower (cut.getD "")) FREE_KEYWORDS = true →
        check_domain ⟨.gaierror, .timedOut cut⟩ = .ok "free")
    ∧ (∀ cut : Option String,
        contains_any_keyword (strToLower (cut.getD "")) FREE_KEYWORDS = false →
        contains_any_keyword (strToLower (cut.getD "")) REGISTERED_KEYWORDS = true →
        check_domain ⟨.gaierror, .timedOut cut⟩ = .ok "registered")
    ∧ (∀ cut : Option String,
        contains_any_keyword (strToLower (cut.getD "")) FREE_KEYWORDS = false →
        contains_any_keyword (strToLower (cut.getD "")) REGISTERED_KEYWORDS = false →
        check_domain ⟨.gaierror, .timedOut cut⟩ = .ok "non conclusive") := by
  refine ⟨fun wo => rfl, fun wo => rfl, ?_, ?_, ?_, ?_, ?_, ?_⟩ <;>
    intro x h₁ <;> first
      | (intro h₂; simp [check_domain, h₁, h₂])
      | simp [check_domain, h₁]

/-- Witness for C4 at concrete inputs: a WHOIS answer containing "no match"
is classified free, and a WHOIS answer containing "registrar:" but no free
indicator is classified registered. -/
theorem C4_check_domain_case_analysis_witness :
    contains_any_keyword (strToLower "No MATCH for domain") FREE_KEYWORDS = true
    ∧ check_domain ⟨.gaierror, .completed "No MATCH for domain"⟩ = .ok "free"
    ∧ check_domain ⟨.gaierror, .completed "Registrar: Example Inc."⟩ = .ok "registered" :=
  ⟨by decide,
   C4_check_domain_case_analysis.2.2.1 "No MATCH for domain" (by decide),
   C4_check_domain_case_analysis.2.2.2.1 "Registrar: Example Inc." (by decide) (by decide)⟩

/-- Counterexample to C6 as stated: a tracker that recorded three available
domains against a target of 2 (reachable, because upgrades may push the
available count above target) persists `success_rate = 3/2`, which exceeds 1
and differs from `min(1, available/target)`. -/
theorem C6_counterexample :
    (exTracker3.save 2).success_rate = 3 / 2
    ∧ ¬ (exTracker3.save 2).success_rate ≤ 1
    ∧ (exTracker3.save 2).success_rate
        ≠ min 1 ((exTracker3.available_cnt : ℚ) / 2) := by
  refine ⟨?_, ?_, ?_⟩ <;>
    norm_num [exTracker3, MetricsTracker.save, MetricsTracker.addDomainStatus]

/-- C6 (amended): `MetricsTracker.save` persists `success_rate =
available_count / requested_count` for positive `requested_count`, with no
clamping (the stored value exceeds 1 whenever the available count exceeds
the target), and 0 when `requested_count` is 0. -/
theorem C6_success_rate_unclamped (m : MetricsTracker) (rc : Nat) :
    (0 < rc → (m.save rc).success_rate = (m.available_cnt : ℚ) / (rc : ℚ))
    ∧ (m.save 0).success_rate = 0
    ∧ 1 < (exTracker3.save 2).success_rate := by
  refine ⟨fun h => ?_, ?_, ?_⟩ <;>
    norm_num [exTracker3, MetricsTracker.save, MetricsTracker.addDomainStatus]
  omega

/-- Witness for C6 (amended) at a concrete input. -/
theorem C6_success_rate_unclamped_witness :
    (0 : Nat) < 2
    ∧ (exTracker3.save 2).success_rate = (exTracker3.available_cnt : ℚ) / (2 : ℚ) :=
  ⟨by decide, (C6_success_rate_unclamped exTracker3 2).1 (by decide)⟩

/-- C9: updating an existing domain record through `upsert_domain_in_db`
overwrites only `status`, `last_checked` and `updated_at`; `domain`,
`domain_name`, `tld` and `created_at` are unchanged, and `suggestion_id` is
taken from the argument only when the stored value was null — an existing
link (a real id, hence nonzero) is never overwritten. -/
theorem C9_upsert_frame (obj : DomainRecord) (parts : String × String) (now : Nat)
    (domain : String) (status : DomainStatus) (sid : Nat) :
    (upsert_domain_in_db (some obj) parts now domain status sid).domain = obj.domain
    ∧ (upsert_domain_in_db (some obj) parts now domain status sid).domain_name
        = obj.domain_name
    ∧ (upsert_domain_in_db (some obj) parts now domain status sid).tld = obj.tld
    ∧ (upsert_domain_in_db (some obj) parts now domain status sid).created_at
        = obj.created_at
    ∧ (upsert_domain_in_db (some obj) parts now domain status sid).status = status
    ∧ (upsert_domain_in_db (some obj) parts now domain status sid).last_checked
        = some now
    ∧ (upsert_domain_in_db (some obj) parts now domain status sid).updated_at = now
    ∧ (obj.suggestion_id = none →
        (upsert_domain_in_db (some obj) parts now domain status sid).suggestion_id
          = some sid)
    ∧ (∀ k : Nat, obj.suggestion_id = some k → k ≠ 0 →
        (upsert_domain_in_db (some obj) parts now domain status sid).suggestion_id
          = some k) := by
  refine ⟨rfl, rfl, rfl, rfl, rfl, rfl, rfl, fun h => ?_, fun k hk hk0 => ?_⟩
  · simp [upsert_domain_in_db, pyTruthyOptNat, h]
  · simp [upsert_domain_in_db, pyTruthyOptNat, hk, hk0]

/-- Witness for C9 at concrete inputs: a record already linked to
suggestion 7 keeps that link (and its creation time) when re-upserted for
suggestion 12. -/
theorem C9_upsert_frame_witness :
    (upsert_domain_in_db (some exRecordLinked) ("ab", "com") 9 "ab.com" .available 12).suggestion_id = some 7
    ∧ (upsert_domain_in_db (some exRecordLinked) ("ab", "com") 9 "ab.com" .available 12).created_at = exRecordLinked.created_at :=
  ⟨(C9_upsert_frame exRecordLinked ("ab", "com") 9 "ab.com" .available 12).2.2.2.2.2.2.2.2
      7 rfl (by decide),
   (C9_upsert_frame exRecordLinked ("ab", "com") 9 "ab.com" .available 12).2.2.2.1⟩

/-- Counterexample to C8 as stated: with `count = 0` the batch orchestrator
does not exit immediately — `request.count or default` coerces the target to
10, the loop runs all five passes, makes five LLM calls and returns a
non-empty accumulator. -/
theorem C8_counterexample :
    (suggest 0 5 exLlmBerlin exChkBerlin).2.llm_call_count = 5
    ∧ (suggest 0 5 exLlmBerlin exChkBerlin).1.accumulated.length = 4
    ∧ ¬ (suggest 0 5 exLlmBerlin exChkBerlin).2.llm_call_count = 0
    ∧ (suggest 0 5 exLlmBerlin exChkBerlin).1.accumulated ≠ [] := by
  refine ⟨by decide, by decide, by decide, by decide⟩

/-- Helper: the binding just set is retrieved. -/
theorem dictGet_dictSet_self (l : List (String × DomainSuggestion)) (k : String)
    (v : DomainSuggestion) : dictGet (dictSet l k v) k = some v := by
  induction l with
  | nil => simp [dictGet, dictSet]
  | cons p ps ih =>
    by_cases hp : p.1 = k
    · simp [dictGet, dictSet, hp]
    · simp [dictGet, dictSet, hp, ih]

/-- Helper: `add_domain_status` bumps exactly one status counter and leaves
every other tracker field alone. -/
theorem addDomainStatus_counts (m : MetricsTracker) (s : DomainStatus) :
    (m.addDomainStatus s).llm_call_count = m.llm_call_count
    ∧ (m.addDomainStatus s).retry_count = m.retry_count
    ∧ (m.addDomainStatus s).worker_job_count = m.worker_job_count
    ∧ (m.addDomainStatus s).total_domains_generated = m.total_domains_generated
    ∧ (m.addDomainStatus s).unique_domains = m.unique_domains
    ∧ statusSum (m.addDomainStatus s) = statusSum m + 1 := by
  cases s <;> simp [MetricsTracker.addDomainStatus, statusSum] <;> omega

/-- Helper: one batch candidate step changes the tracker exactly by one
`add_domain_status` call. -/
theorem processDomainBatch_metrics (rc : Nat) (f : String → Option String)
    (now : Nat) (st : OrchState) (m : MetricsTracker) (d : String) :
    (processDomainBatch rc f now (st, m) d).2
      = m.addDomainStatus (map_worker_status_to_domain_status ((f d).getD "unknown")) := by
  simp only [processDomainBatch]
  cases hd : dictGet st.lookup d <;> simp [hd] <;> split_ifs <;> rfl

/-- Helper: one batch candidate step never touches the `retries` counter of
the orchestrator state. -/
theorem processDomainBatch_retries (rc : Nat) (f : String → Option String)
    (now : Nat) (st : OrchState) (m : MetricsTracker) (d : String) :
    (processDomainBatch rc f now (st, m) d).1.retries = st.retries := by
  simp only [processDomainBatch]
  cases hd : dictGet st.lookup d <;> simp [hd] <;> split_ifs <;> rfl

/-- Helper: a full batch pass over `ds` adds exactly `ds.length` to the
status counters, leaves the call counters and generation totals alone, and
never touches `retries`. -/
theorem runPassBatch_metrics (rc : Nat) (f : String → Option String) (now : Nat) :
    ∀ (ds : List String) (st : OrchState) (m : MetricsTracker),
    (runPassBatch rc f now st m ds).2.llm_call_count = m.llm_call_count
    ∧ (runPassBatch rc f now st m ds).2.retry_count = m.retry_count
    ∧ (runPassBatch rc f now st m ds).2.worker_job_count = m.worker_job_count
    ∧ (runPassBatch rc f now st m ds).2.total_domains_generated
        = m.total_domains_generated
    ∧ statusSum (runPassBatch rc f now st m ds).2 = statusSum m + ds.length
    ∧ (runPassBatch rc f now st m ds).1.retries = st.retries := by
  intro ds
  induction ds with
  | nil => intro st m; simp [runPassBatch]
  | cons d ds ih =>
    intro st m
    have hcons : runPassBatch rc f now st m (d :: ds)
        = runPassBatch rc f now (processDomainBatch rc f now (st, m) d).1
            (processDomainBatch rc f now (st, m) d).2 ds := rfl
    have hm := processDomainBatch_metrics rc f now st m d
    have hr := processDomainBatch_retries rc f now st m d
    have ha := addDomainStatus_counts m
      (map_worker_status_to_domain_status ((f d).getD "unknown"))
    obtain ⟨a1, a2, a3, a4, a5, a6⟩ := ha
    obtain ⟨i1, i2, i3, i4, i5, i6⟩ :=
      ih (processDomainBatch rc f now (st, m) d).1 (processDomainBatch rc f now (st, m) d).2
    rw [hcons]
    refine ⟨?_, ?_, ?_, ?_, ?_, ?_⟩
    · rw [i1, hm, a1]
    · rw [i2, hm, a2]
    · rw [i3, hm, a3]
    · rw [i4, hm, a4]
    · rw [i5, hm, a6]; simp; omega
    · rw [i6, hr]

/-- Helper: one streaming candidate step leaves the call counters, the
generation totals and `retries` alone (its only tracker effect is at most
one `add_domain_status` call). -/
theorem processDomainStream_metrics (rc : Nat) (toCheck : List String)
    (f : String → Option String) (now : Nat) (st : OrchState) (m : MetricsTracker)
    (evs : List StreamEvent) (d : String) :
    (processDomainStream rc toCheck f now (st, m, evs) d).2.1.llm_call_count
        = m.llm_call_count
    ∧ (processDomainStream rc toCheck f now (st, m, evs) d).2.1.retry_count
        = m.retry_count
    ∧ (processDomainStream rc toCheck f now (st, m, evs) d).2.1.worker_job_count
        = m.worker_job_count
    ∧ (processDomainStream rc toCheck f now (st, m, evs) d).2.1.total_domains_generated
        = m.total_domains_generated
    ∧ (processDomainStream rc toCheck f now (st, m, evs) d).1.retries = st.retries := by
  have ha := addDomainStatus_counts m
    (map_worker_status_to_domain_status ((f d).getD "unknown"))
  obtain ⟨a1, a2, a3, a4, a5, a6⟩ := ha
  simp only [processDomainStream]
  cases hd : dictGet st.lookup d <;> simp [hd] <;> split_ifs <;>
    simp [a1, a2, a3, a4]

/-- Helper: a full streaming pass leaves the call counters, generation
totals and `retries` alone. -/
theorem runPassStream_metrics (rc : Nat) (toCheck : List String)
    (f : String → Option String) (now : Nat) :
    ∀ (ds : List String) (st : OrchState) (m : MetricsTracker) (evs : List StreamEvent),
    (runPassStream rc toCheck f now st m evs ds).2.1.llm_call_count = m.llm_call_count
    ∧ (runPassStream rc toCheck f now st m evs ds).2.1.retry_count = m.retry_count
    ∧ (runPassStream rc toCheck f now st m evs ds).2.1.worker_job_count
        = m.worker_job_count
    ∧ (runPassStream rc toCheck f now st m evs ds).1.retries = st.retries := by
  intro ds
  induction ds with
  | nil => intro st m evs; simp [runPassStream]
  | cons d ds ih =>
    intro st m evs
    have hcons : runPassStream rc toCheck f now st m evs (d :: ds)
        = runPassStream rc toCheck f now
            (processDomainStream rc toCheck f now (st, m, evs) d).1
            (processDomainStream rc toCheck f now (st, m, evs) d).2.1
            (processDomainStream rc toCheck f now (st, m, evs) d).2.2 ds := rfl
    have hm := processDomainStream_metrics rc toCheck f now st m evs d
    obtain ⟨s1, s2, s3, s4, s5⟩ := hm
    obtain ⟨i1, i2, i3, i4⟩ :=
      ih (processDomainStream rc toCheck f now (st, m, evs) d).1
        (processDomainStream rc toCheck f now (st, m, evs) d).2.1
        (processDomainStream rc toCheck f now (st, m, evs) d).2.2
    rw [hcons]
    exact ⟨by rw [i1, s1], by rw [i2, s2], by rw [i3, s3], by rw [i4, s5]⟩

/-- C1: in both orchestrator modes, once `available_count` has reached
`target_count`, a new candidate whose mapped status is available is silently
skipped — the accumulator, the lookup table and `available_count` are
unchanged and streaming emits no event — while an upgrade of an accumulated
non-available entry to available is still applied, pushes `available_count`
one past the cap, rebinds the entry to the available suggestion, and in
streaming mode emits exactly one UPDATE event. -/
theorem C1_cap_semantics (rc : Nat) (f : String → Option String)
    (toCheck : List String) (now : Nat) (st : OrchState) (m : MetricsTracker)
    (evs : List StreamEvent) (d : String) (hcap : rc ≤ st.availableCount) :
    (dictGet st.lookup d = none →
      map_worker_status_to_domain_status ((f d).getD "unknown") = .available →
        (processDomainBatch rc f now (st, m) d).1.accumulated = st.accumulated
        ∧ (processDomainBatch rc f now (st, m) d).1.lookup = st.lookup
        ∧ (processDomainBatch rc f now (st, m) d).1.availableCount = st.availableCount)
    ∧ (dictGet st.lookup d = none →
      map_worker_status_to_domain_status ((f d).getD "unknown") = .available →
        (processDomainStream rc toCheck f now (st, m, evs) d).1.accumulated
            = st.accumulated
        ∧ (processDomainStream rc toCheck f now (st, m, evs) d).1.lookup = st.lookup
        ∧ (processDomainStream rc toCheck f now (st, m, evs) d).1.availableCount
            = st.availableCount
        ∧ (processDomainStream rc toCheck f now (st, m, evs) d).2.2 = evs)
    ∧ (∀ e : DomainSuggestion, dictGet st.lookup d = some e →
      e.status ≠ .available →
      map_worker_status_to_domain_status ((f d).getD "unknown") = .available →
        (processDomainBatch rc f now (st, m) d).1.availableCount
            = st.availableCount + 1
        ∧ rc < (processDomainBatch rc f now (st, m) d).1.availableCount
        ∧ dictGet (processDomainBatch rc f now (st, m) d).1.lookup d
            = some (mkSuggestion d .available now))
    ∧ (∀ e : DomainSuggestion, dictGet st.lookup d = some e →
      e.status ≠ .available →
      map_worker_status_to_domain_status ((f d).getD "unknown") = .available →
        (processDomainStream rc toCheck f now (st, m, evs) d).1.availableCount
            = st.availableCount + 1
        ∧ rc < (processDomainStream rc toCheck f now (st, m, evs) d).1.availableCount
        ∧ dictGet (processDomainStream rc toCheck f now (st, m, evs) d).1.lookup d
            = some (mkSuggestion d .available now)
        ∧ (processDomainStream rc toCheck f now (st, m, evs) d).2.2
            = evs ++ [StreamEvent.update (mkSuggestion d .available now)
                (st.availableCount + 1) st.accumulated.length]) := by
  refine ⟨fun hn hs => ?_, fun hn hs => ?_, fun e he hes hs => ?_, fun e he hes hs => ?_⟩
  · simp [processDomainBatch, hn, hs, hcap]
  · simp [processDomainStream, hn, hs, hcap]
    split_ifs <;> simp
  · simp [processDomainBatch, he, hes, hs, dictGet_dictSet_self]
    omega
  · simp [processDomainStream, he, hes, hs, dictGet_dictSet_self, replaceFirst_length]
    omega

/-- Witness for C1 at a concrete capped state: a fresh free candidate leaves
the accumulator untouched, while upgrading the accumulated unknown entry
emits one UPDATE event with the over-target count. -/
theorem C1_cap_semantics_witness :
    2 ≤ exStateCapped.availableCount
    ∧ (processDomainBatch 2 exLookupFree 1 (exStateCapped, {}) "bar.com").1.accumulated
        = exStateCapped.accumulated
    ∧ (processDomainStream 2 ["foo.com", "bar.com"] exLookupFree 1
        (exStateCapped, {}, []) "foo.com").2.2
        = [] ++ [StreamEvent.update (mkSuggestion "foo.com" .available 1)
            (exStateCapped.availableCount + 1) exStateCapped.accumulated.length] := by
  refine ⟨by decide, ?_, ?_⟩
  · exact ((C1_cap_semantics 2 exLookupFree ["foo.com", "bar.com"] 1 exStateCapped {}
      [] "bar.com" (by decide)).1 (by decide) (by decide)).1
  · exact ((C1_cap_semantics 2 exLookupFree ["foo.com", "bar.com"] 1 exStateCapped {}
      [] "foo.com" (by decide)).2.2.2 exSugFooUnknown (by decide) (by decide)
      (by decide)).2.2.2

/-- Helper: one batch candidate step keeps every available binding intact
and preserves the accumulator/lookup sync invariant. -/
theorem processDomainBatch_preserves_available (rc : Nat) (f : String → Option String)
    (now : Nat) (st : OrchState) (m : MetricsTracker) (d' d : String)
    (e : DomainSuggestion) (hInv : OrchInv st) (hb : dictGet st.lookup d = some e)
    (he : e.status = .available) :
    dictGet (processDomainBatch rc f now (st, m) d').1.lookup d = some e
    ∧ OrchInv (processDomainBatch rc f now (st, m) d').1 := by
  have hsdom : (mkSuggestion d' (map_worker_status_to_domain_status ((f d').getD "unknown")) now).domain = d' := rfl
  by_cases hdd : d' = d
  · subst hdd
    simp only [processDomainBatch, hb]
    split_ifs with hcond
    · exact absurd he hcond.1
    · exact ⟨hb, hInv⟩
  · simp only [processDomainBatch]
    cases hd' : dictGet st.lookup d' with
    | some ex =>
      simp only [hd']
      split_ifs with hcond
      · refine ⟨?_, ?_⟩
        · simpa [dictGet_dictSet_ne _ _ _ _ hdd] using hb
        · show dictSet st.lookup d' _ = _
          rw [hInv]
          exact dictSet_map_replaceFirst st.accumulated d' _ hsdom
            (by rw [← hInv, hd']; simp)
      · exact ⟨hb, hInv⟩
    | none =>
      simp only [hd']
      split_ifs with hcond hav
      · exact ⟨hb, hInv⟩
      all_goals
        refine ⟨?_, ?_⟩
        · show dictGet (dictSet st.lookup d' _) d = some e
          simpa [dictGet_dictSet_ne _ _ _ _ hdd] using hb
        · show dictSet st.lookup d' _ = _
          rw [hInv, dictSet_of_none _ _ _ (by rw [← hInv]; exact hd'),
            List.map_append]
          rfl

/-- Helper: one streaming candidate step keeps every available binding
intact and preserves the accumulator/lookup sync invariant. -/
theorem processDomainStream_preserves_available (rc : Nat) (toCheck : List String)
    (f : String → Option String) (now : Nat) (st : OrchState) (m : MetricsTracker)
    (evs : List StreamEvent) (d' d : String) (e : DomainSuggestion)
    (hInv : OrchInv st) (hb : dictGet st.lookup d = some e)
    (he : e.status = .available) :
    dictGet (processDomainStream rc toCheck f now (st, m, evs) d').1.lookup d = some e
    ∧ OrchInv (processDomainStream rc toCheck f now (st, m, evs) d').1 := by
  have hsdom : (mkSuggestion d' (map_worker_status_to_domain_status ((f d').getD "unknown")) now).domain = d' := rfl
  by_cases hdd : d' = d
  · subst hdd
    have hskipF : ¬ (¬ toCheck.contains d' ∧ (dictGet st.lookup d').isNone) := by
      simp [hb]
    simp only [processDomainStream]
    rw [if_neg hskipF]
    simp only [hb]
    split_ifs with hcond
    · exact absurd he hcond.1
    · exact ⟨hb, hInv⟩
  · by_cases hskip : (¬ toCheck.contains d' ∧ (dictGet st.lookup d').isNone)
    · simp only [processDomainStream]
      rw [if_pos hskip]
      exact ⟨hb, hInv⟩
    · simp only [processDomainStream]
      rw [if_neg hskip]
      cases hd' : dictGet st.lookup d' with
      | some ex =>
        simp only [hd']
        split_ifs with hcond
        · refine ⟨?_, ?_⟩
          · simpa [dictGet_dictSet_ne _ _ _ _ hdd] using hb
          · show dictSet st.lookup d' _ = _
            rw [hInv]
            exact dictSet_map_replaceFirst st.accumulated d' _ hsdom
              (by rw [← hInv, hd']; simp)
        · exact ⟨hb, hInv⟩
      | none =>
        simp only [hd']
        split_ifs with hcond hav
        · exact ⟨hb, hInv⟩
        all_goals
          refine ⟨?_, ?_⟩
          · show dictGet (dictSet st.lookup d' _) d = some e
            simpa [dictGet_dictSet_ne _ _ _ _ hdd] using hb
          · show dictSet st.lookup d' _ = _
            rw [hInv, dictSet_of_none _ _ _ (by rw [← hInv]; exact hd'),
              List.map_append]
            rfl

/-- Helper: a whole batch pass keeps every available binding intact and
preserves the sync invariant. -/
theorem runPassBatch_preserves_available (rc : Nat) (f : String → Option String)
    (now : Nat) (d : String) (e : DomainSuggestion) (he : e.status = .available) :
    ∀ (ds : List String) (st : OrchState) (m : MetricsTracker),
    OrchInv st → dictGet st.lookup d = some e →
    dictGet (runPassBatch rc f now st m ds).1.lookup d = some e
    ∧ OrchInv (runPassBatch rc f now st m ds).1 := by
  intro ds
  induction ds with
  | nil => intro st m hInv hb; exact ⟨hb, hInv⟩
  | cons d' ds ih =>
    intro st m hInv hb
    have h := processDomainBatch_preserves_available rc f now st m d' d e hInv hb he
    exact ih (processDomainBatch rc f now (st, m) d').1
      (processDomainBatch rc f now (st, m) d').2 h.2 h.1

/-- Helper: a whole streaming pass keeps every available binding intact and
preserves the sync invariant. -/
theorem runPassStream_preserves_available (rc : Nat) (toCheck : List String)
    (f : String → Option String) (now : Nat) (d : String) (e : DomainSuggestion)
    (he : e.status = .available) :
    ∀ (ds : List String) (st : OrchState) (m : MetricsTracker) (evs : List StreamEvent),
    OrchInv st → dictGet st.lookup d = some e →
    dictGet (runPassStream rc toCheck f now st m evs ds).1.lookup d = some e
    ∧ OrchInv (runPassStream rc toCheck f now st m evs ds).1 := by
  intro ds
  induction ds with
  | nil => intro st m evs hInv hb; exact ⟨hb, hInv⟩
  | cons d' ds ih =>
    intro st m evs hInv hb
    have h := processDomainStream_preserves_available rc toCheck f now st m evs d' d e
      hInv hb he
    exact ih (processDomainStream rc toCheck f now (st, m, evs) d').1
      (processDomainStream rc toCheck f now (st, m, evs) d').2.1
      (processDomainStream rc toCheck f now (st, m, evs) d').2.2 h.2 h.1

/-- C3: in both orchestrator modes, once an fqdn is recorded in the
accumulator with status available, no later candidate-processing pass (with
any candidates and any reported statuses, i.e. any retry) replaces that
entry or rebinds it to anything else: after the pass the lookup table and
the accumulator list still hold exactly the original available entry, and
the sync invariant is preserved (the only replacement the step functions
perform upgrades a non-available entry to available). -/
theorem C3_available_entry_stable (rc : Nat) (f : String → Option String)
    (toCheck : List String) (now : Nat) (ds : List String) (st : OrchState)
    (m : MetricsTracker) (evs : List StreamEvent) (d : String)
    (e : DomainSuggestion) (hInv : OrchInv st)
    (hb : dictGet st.lookup d = some e) (he : e.status = .available) :
    (dictGet (runPassBatch rc f now st m ds).1.lookup d = some e
      ∧ (runPassBatch rc f now st m ds).1.accumulated.find?
          (fun s => s.domain = d) = some e
      ∧ OrchInv (runPassBatch rc f now st m ds).1)
    ∧ (dictGet (runPassStream rc toCheck f now st m evs ds).1.lookup d = some e
      ∧ (runPassStream rc toCheck f now st m evs ds).1.accumulated.find?
          (fun s => s.domain = d) = some e
      ∧ OrchInv (runPassStream rc toCheck f now st m evs ds).1) := by
  have hB := runPassBatch_preserves_available rc f now d e he ds st m hInv hb
  have hS := runPassStream_preserves_available rc toCheck f now d e he ds st m evs
    hInv hb
  refine ⟨⟨hB.1, ?_, hB.2⟩, ⟨hS.1, ?_, hS.2⟩⟩
  · have := dictGet_map (runPassBatch rc f now st m ds).1.accumulated d
    rw [← this, ← hB.2]
    exact hB.1
  · have := dictGet_map (runPassStream rc toCheck f now st m evs ds).1.accumulated d
    rw [← this, ← hS.2]
    exact hS.1

/-- Witness for C3 at a concrete state: a later pass that reports "a.com"
as registered does not displace its accumulated available entry. -/
theorem C3_available_entry_stable_witness :
    OrchInv exStateAvail
    ∧ dictGet exStateAvail.lookup "a.com" = some exSugAvail
    ∧ dictGet (runPassBatch 1 (exChkRegistered 0) 1 exStateAvail {}
        ["a.com"]).1.lookup "a.com" = some exSugAvail
    ∧ (runPassStream 1 ["a.com"] (exChkRegistered 0) 1 exStateAvail {} []
        ["a.com"]).1.accumulated.find? (fun s => s.domain = "a.com")
        = some exSugAvail := by
  refine ⟨rfl, by decide, ?_, ?_⟩
  · exact (C3_available_entry_stable 1 (exChkRegistered 0) ["a.com"] 1 ["a.com"]
      exStateAvail {} [] "a.com" exSugAvail rfl (by decide) (by decide)).1.1
  · exact (C3_available_entry_stable 1 (exChkRegistered 0) ["a.com"] 1 ["a.com"]
      exStateAvail {} [] "a.com" exSugAvail rfl (by decide) (by decide)).2.2.1

/-- Helper: across the batch retry loop, the LLM-call counter stays one
ahead of the retry counter exactly when the loop broke because the target
was reached (the `break` skips the final `retries += 1`), and the two
counters stay equal when the loop exhausted its retry budget. -/
theorem suggestIterBatch_llm_retry (rc mr : Nat) (llm : Nat → List String)
    (check : Nat → String → Option String) :
    ∀ (fuel : Nat) (st : OrchState) (m : MetricsTracker),
    mr ≤ fuel + st.retries →
    m.llm_call_count = m.retry_count →
    (st.retries < mr ∨ st.availableCount < rc) →
    (rc ≤ (suggestIterBatch rc mr llm check fuel (st, m)).1.availableCount →
      (suggestIterBatch rc mr llm check fuel (st, m)).2.llm_call_count
        = (suggestIterBatch rc mr llm check fuel (st, m)).2.retry_count + 1)
    ∧ ((suggestIterBatch rc mr llm check fuel (st, m)).1.availableCount < rc →
      (suggestIterBatch rc mr llm check fuel (st, m)).2.llm_call_count
        = (suggestIterBatch rc mr llm check fuel (st, m)).2.retry_count) := by
  intro fuel
  induction fuel with
  | zero =>
    intro st m hfuel hcnt hd
    simp only [suggestIterBatch]
    refine ⟨fun hreach => ?_, fun _ => hcnt⟩
    have hreach' : rc ≤ st.availableCount := hreach
    rcases hd with h | h <;> omega
  | succ fuel ih =>
    intro st m hfuel hcnt hd
    simp only [suggestIterBatch]
    by_cases hg : st.retries < mr
    · rw [if_pos hg]
      set mm := ((m.incrementLlmCall).addDomainsGenerated (llm m.llm_call_count)).incrementWorkerJob with hmm
      set stp := runPassBatch rc (check m.llm_call_count) m.llm_call_count st mm
        (llm m.llm_call_count) with hstp
      obtain ⟨p1, p2, p3, p4, p5, p6⟩ := runPassBatch_metrics rc
        (check m.llm_call_count) m.llm_call_count (llm m.llm_call_count) st mm
      rw [← hstp] at p1 p2 p3 p4 p5 p6
      have e1 : mm.llm_call_count = m.llm_call_count + 1 := rfl
      have e2 : mm.retry_count = m.retry_count := rfl
      by_cases hb : rc ≤ stp.1.availableCount
      · rw [if_pos hb]
        exact ⟨fun _ => by omega, fun hlt => by omega⟩
      · rw [if_neg hb]
        apply ih
        · show mr ≤ fuel + (stp.1.retries + 1)
          omega
        · show stp.2.llm_call_count = stp.2.retry_count + 1
          omega
        · right
          show stp.1.availableCount < rc
          omega
    · rw [if_neg hg]
      refine ⟨fun hreach => ?_, fun _ => hcnt⟩
      have hreach' : rc ≤ st.availableCount := hreach
      rcases hd with h | h <;> omega

/-- Helper: across the streaming retry loop (which also counts a retry for
passes with nothing to check), the LLM-call counter ends one ahead of the
retry counter exactly when the loop broke on reaching the target, and equal
to it otherwise. -/
theorem suggestIterStream_llm_retry (rc mr : Nat) (llm : Nat → List String)
    (check : Nat → String → Option String) :
    ∀ (fuel : Nat) (st : OrchState) (m : MetricsTracker) (evs : List StreamEvent),
    m.llm_call_count = m.retry_count →
    st.availableCount < rc →
    (rc ≤ (suggestIterStream rc mr llm check fuel (st, m, evs)).1.availableCount →
      (suggestIterStream rc mr llm check fuel (st, m, evs)).2.1.llm_call_count
        = (suggestIterStream rc mr llm check fuel (st, m, evs)).2.1.retry_count + 1)
    ∧ ((suggestIterStream rc mr llm check fuel (st, m, evs)).1.availableCount < rc →
      (suggestIterStream rc mr llm check fuel (st, m, evs)).2.1.llm_call_count
        = (suggestIterStream rc mr llm check fuel (st, m, evs)).2.1.retry_count) := by
  intro fuel
  induction fuel with
  | zero =>
    intro st m evs hcnt hlt
    simp only [suggestIterStream]
    refine ⟨fun hreach => ?_, fun _ => hcnt⟩
    have hreach' : rc ≤ st.availableCount := hreach
    omega
  | succ fuel ih =>
    intro st m evs hcnt hlt
    simp only [suggestIterStream]
    by_cases hg : st.retries < mr
    · rw [if_pos hg]
      set tC := (llm m.llm_call_count).filter (fun d =>
        match dictGet st.lookup d with
        | none => true
        | some s => s.status ≠ DomainStatus.available) with htC
      by_cases hemp : tC.isEmpty
      · rw [if_pos hemp]
        apply ih
        · show m.llm_call_count + 1 = m.retry_count + 1
          omega
        · show st.availableCount < rc
          exact hlt
      · rw [if_neg hemp]
        set mm := ((m.incrementLlmCall).addDomainsGenerated
          (llm m.llm_call_count)).incrementWorkerJob with hmm
        set smep := runPassStream rc tC (check m.llm_call_count) m.llm_call_count st
          mm evs (llm m.llm_call_count) with hsme
        obtain ⟨q1, q2, q3, q4⟩ := runPassStream_metrics rc tC
          (check m.llm_call_count) m.llm_call_count (llm m.llm_call_count) st mm evs
        rw [← hsme] at q1 q2 q3 q4
        have e1 : mm.llm_call_count = m.llm_call_count + 1 := rfl
        have e2 : mm.retry_count = m.retry_count := rfl
        by_cases hb : rc ≤ smep.1.availableCount
        · rw [if_pos hb]
          exact ⟨fun _ => by omega, fun hl => by omega⟩
        · rw [if_neg hb]
          apply ih
          · show smep.2.1.llm_call_count = smep.2.1.retry_count + 1
            omega
          · show smep.1.availableCount < rc
            omega
    · rw [if_neg hg]
      refine ⟨fun hreach => ?_, fun _ => hcnt⟩
      have hreach' : rc ≤ st.availableCount := hreach
      omega

/-- Counterexample to C5 as stated: in the seed scenario (target 3, four
candidates, three free) the target is reached on the first pass, the loop
breaks before `retries += 1`, and the metrics row records `retry_count = 0`
(not 1) alongside `llm_call_count = 1`. -/
theorem C5_counterexample :
    3 ≤ (suggest 3 5 exLlmBerlin exChkBerlin).1.availableCount
    ∧ (suggest 3 5 exLlmBerlin exChkBerlin).2.llm_call_count = 1
    ∧ (suggest 3 5 exLlmBerlin exChkBerlin).2.retry_count = 0
    ∧ (suggest 3 5 exLlmBerlin exChkBerlin).2.retry_count ≠ 1 := by
  exact ⟨by decide, by decide, by decide, by decide⟩

/-- C5 (amended): in both orchestrator modes the retries counter increments
after every full pass except the pass on which `available_count` reaches
`target_count` — the loop breaks before the increment — so a run that
reaches its target ends with `retry_count = llm_call_count - 1` (0 on a
first-pass success), and a run that exhausts its budget ends with
`retry_count = llm_call_count` (streaming passes with no checkable work
still increment both). -/
theorem C5_retry_skipped_on_target (count cfg : Nat) (llm : Nat → List String)
    (check : Nat → String → Option String) :
    (effectiveRequestedCount count ≤ (suggest count cfg llm check).1.availableCount →
      (suggest count cfg llm check).2.llm_call_count
        = (suggest count cfg llm check).2.retry_count + 1)
    ∧ ((suggest count cfg llm check).1.availableCount < effectiveRequestedCount count →
      (suggest count cfg llm check).2.llm_call_count
        = (suggest count cfg llm check).2.retry_count)
    ∧ (effectiveRequestedCount count ≤ (suggest_stream count cfg llm check).1.availableCount →
      (suggest_stream count cfg llm check).2.1.llm_call_count
        = (suggest_stream count cfg llm check).2.1.retry_count + 1)
    ∧ ((suggest_stream count cfg llm check).1.availableCount < effectiveRequestedCount count →
      (suggest_stream count cfg llm check).2.1.llm_call_count
        = (suggest_stream count cfg llm check).2.1.retry_count) := by
  have hB := suggestIterBatch_llm_retry (effectiveRequestedCount count) (max 1 cfg)
    llm check (max 1 cfg) {} {}
    (by show max 1 cfg ≤ max 1 cfg + 0; omega) rfl
    (Or.inl (by show 0 < max 1 cfg; omega))
  have hS := suggestIterStream_llm_retry (effectiveRequestedCount count) (max 1 cfg)
    llm check (max 1 cfg) {} {}
    [StreamEvent.start (effectiveRequestedCount count) (max 1 cfg)] rfl
    (by show 0 < effectiveRequestedCount count
        unfold effectiveRequestedCount
        split <;> omega)
  exact ⟨hB.1, hB.2, hS.1, hS.2⟩

/-- Witness for C5 (amended) at the seed scenario: the target is reached and
the final counters satisfy `llm_call_count = retry_count + 1`. -/
theorem C5_retry_skipped_on_target_witness :
    effectiveRequestedCount 3 ≤ (suggest 3 5 exLlmBerlin exChkBerlin).1.availableCount
    ∧ (suggest 3 5 exLlmBerlin exChkBerlin).2.llm_call_count
        = (suggest 3 5 exLlmBerlin exChkBerlin).2.retry_count + 1 :=
  ⟨by decide, (C5_retry_skipped_on_target 3 5 exLlmBerlin exChkBerlin).1 (by decide)⟩

/-- Helper: across the batch retry loop, the sum of the three per-status
counters tracks `total_domains_generated` (each generated candidate gets
exactly one `add_domain_status` call per pass it appears in). -/
theorem suggestIterBatch_statusSum (rc mr : Nat) (llm : Nat → List String)
    (check : Nat → String → Option String) :
    ∀ (fuel : Nat) (st : OrchState) (m : MetricsTracker),
    statusSum m = m.total_domains_generated →
    statusSum (suggestIterBatch rc mr llm check fuel (st, m)).2
      = (suggestIterBatch rc mr llm check fuel (st, m)).2.total_domains_generated := by
  intro fuel
  induction fuel with
  | zero => intro st m h; simpa [suggestIterBatch] using h
  | succ fuel ih =>
    intro st m h
    simp only [suggestIterBatch]
    by_cases hg : st.retries < mr
    · rw [if_pos hg]
      set mm := ((m.incrementLlmCall).addDomainsGenerated
        (llm m.llm_call_count)).incrementWorkerJob with hmm
      set stp := runPassBatch rc (check m.llm_call_count) m.llm_call_count st mm
        (llm m.llm_call_count) with hstp
      obtain ⟨p1, p2, p3, p4, p5, p6⟩ := runPassBatch_metrics rc
        (check m.llm_call_count) m.llm_call_count (llm m.llm_call_count) st mm
      rw [← hstp] at p1 p2 p3 p4 p5 p6
      have e3 : mm.total_domains_generated
          = m.total_domains_generated + (llm m.llm_call_count).length := rfl
      have e4 : statusSum mm = statusSum m := rfl
      by_cases hb : rc ≤ stp.1.availableCount
      · rw [if_pos hb]
        omega
      · rw [if_neg hb]
        apply ih
        show statusSum stp.2 = stp.2.total_domains_generated
        omega
    · rw [if_neg hg]
      exact h

/-- Counterexample to C7 as stated: a run whose single candidate is
regenerated and re-processed on a second pass records two per-status counts
but only one returned (unique) domain, so the per-status counts do not sum
to `domains_returned`. -/
theorem C7_counterexample :
    ((suggest 1 2 exLlmRepeat exChkRegistered).2.save 1).available_domains_count
      + ((suggest 1 2 exLlmRepeat exChkRegistered).2.save 1).registered_domains_count
      + ((suggest 1 2 exLlmRepeat exChkRegistered).2.save 1).unknown_domains_count = 2
    ∧ ((suggest 1 2 exLlmRepeat exChkRegistered).2.save 1).domains_returned = 1
    ∧ ¬ (((suggest 1 2 exLlmRepeat exChkRegistered).2.save 1).available_domains_count
      + ((suggest 1 2 exLlmRepeat exChkRegistered).2.save 1).registered_domains_count
      + ((suggest 1 2 exLlmRepeat exChkRegistered).2.save 1).unknown_domains_count
      = ((suggest 1 2 exLlmRepeat exChkRegistered).2.save 1).domains_returned) := by
  exact ⟨by decide, by decide, by decide⟩

/-- C7 (amended): for every metrics row persisted by a batch `suggest` run,
the three per-status counts sum to `total_domains_generated` — they count
processing events, one per generated candidate per pass — and therefore
equal `domains_returned` (the number of distinct generated fqdns) only when
no fqdn is generated more than once across passes. -/
theorem C7_status_counts_sum (count cfg rcSave : Nat) (llm : Nat → List String)
    (check : Nat → String → Option String) :
    ((suggest count cfg llm check).2.save rcSave).available_domains_count
      + ((suggest count cfg llm check).2.save rcSave).registered_domains_count
      + ((suggest count cfg llm check).2.save rcSave).unknown_domains_count
      = ((suggest count cfg llm check).2.save rcSave).total_domains_generated := by
  have h := suggestIterBatch_statusSum (effectiveRequestedCount count) (max 1 cfg)
    llm check (max 1 cfg) {} {} rfl
  simp only [statusSum] at h
  simpa [suggest, MetricsTracker.save] using h

/-- Helper: the batch retry loop never decreases the LLM-call counter. -/
theorem suggestIterBatch_llm_mono (rc mr : Nat) (llm : Nat → List String)
    (check : Nat → String → Option String) :
    ∀ (fuel : Nat) (st : OrchState) (m : MetricsTracker),
    m.llm_call_count ≤ (suggestIterBatch rc mr llm check fuel (st, m)).2.llm_call_count := by
  intro fuel
  induction fuel with
  | zero => intro st m; simp [suggestIterBatch]
  | succ fuel ih =>
    intro st m
    simp only [suggestIterBatch]
    by_cases hg : st.retries < mr
    · rw [if_pos hg]
      set mm := ((m.incrementLlmCall).addDomainsGenerated
        (llm m.llm_call_count)).incrementWorkerJob with hmm
      set stp := runPassBatch rc (check m.llm_call_count) m.llm_call_count st mm
        (llm m.llm_call_count) with hstp
      obtain ⟨p1, p2, p3, p4, p5, p6⟩ := runPassBatch_metrics rc
        (check m.llm_call_count) m.llm_call_count (llm m.llm_call_count) st mm
      rw [← hstp] at p1 p2 p3 p4 p5 p6
      have e1 : mm.llm_call_count = m.llm_call_count + 1 := rfl
      by_cases hb : rc ≤ stp.1.availableCount
      · rw [if_pos hb]
        omega
      · rw [if_neg hb]
        refine le_trans ?_ (ih _ _)
        have e5 : (stp.2.incrementRetry).llm_call_count = stp.2.llm_call_count := rfl
        omega
    · rw [if_neg hg]

/-- Helper: once the loop guard holds, an iteration makes at least one LLM
call. -/
theorem suggestIterBatch_llm_lower (rc mr : Nat) (llm : Nat → List String)
    (check : Nat → String → Option String) (fuel : Nat) (st : OrchState)
    (m : MetricsTracker) (hg : st.retries < mr) :
    m.llm_call_count + 1
      ≤ (suggestIterBatch rc mr llm check (fuel + 1) (st, m)).2.llm_call_count := by
  simp only [suggestIterBatch]
  rw [if_pos hg]
  set mm := ((m.incrementLlmCall).addDomainsGenerated
    (llm m.llm_call_count)).incrementWorkerJob with hmm
  set stp := runPassBatch rc (check m.llm_call_count) m.llm_call_count st mm
    (llm m.llm_call_count) with hstp
  obtain ⟨p1, p2, p3, p4, p5, p6⟩ := runPassBatch_metrics rc
    (check m.llm_call_count) m.llm_call_count (llm m.llm_call_count) st mm
  rw [← hstp] at p1 p2 p3 p4 p5 p6
  have e1 : mm.llm_call_count = m.llm_call_count + 1 := rfl
  by_cases hb : rc ≤ stp.1.availableCount
  · rw [if_pos hb]
    omega
  · rw [if_neg hb]
    refine le_trans ?_ (suggestIterBatch_llm_mono rc mr llm check fuel _ _)
    have e5 : (stp.2.incrementRetry).llm_call_count = stp.2.llm_call_count := rfl
    omega

/-- C8 (amended): a requested count of 0 never reaches the orchestrator —
the request model requires `1 ≤ count ≤ 100` — and even bypassing
validation, the handler's `request.count or default` coerces 0 to the
default 10, so the loop runs and performs at least one LLM call instead of
exiting immediately with an empty accumulator. -/
theorem C8_count_zero_coerced (cfg : Nat) (llm : Nat → List String)
    (check : Nat → String → Option String) :
    requestCountOk 0 = false
    ∧ effectiveRequestedCount 0 = 10
    ∧ 1 ≤ (suggest 0 cfg llm check).2.llm_call_count := by
  refine ⟨by decide, rfl, ?_⟩
  show 1 ≤ (suggestIterBatch 10 (max 1 cfg) llm check (max 1 cfg) ({}, {})).2.llm_call_count
  obtain ⟨k, hk⟩ : ∃ k, max 1 cfg = k + 1 := ⟨max 1 cfg - 1, by omega⟩
  rw [hk]
  have h := suggestIterBatch_llm_lower 10 (k + 1) llm check k {} {}
    (by show 0 < k + 1; omega)
  have h0 : ({} : MetricsTracker).llm_call_count = 0 := rfl
  omega

/-- Helper: an element failing the filter predicate has count 0 in the
filtered list. -/
theorem count_filter_neg {α : Type} [BEq α] [LawfulBEq α] (p : α → Bool) (l : List α)
    (a : α) (h : p a = false) : (l.filter p).count a = 0 := by
  refine List.count_eq_zero.2 (fun hm => ?_)
  have := (List.mem_filter.mp hm).2
  rw [h] at this
  exact Bool.false_ne_true this

/-- Helper: an element satisfying the filter predicate keeps its count in
the filtered list. -/
theorem count_filter_pos {α : Type} [BEq α] [LawfulBEq α] (p : α → Bool) (l : List α)
    (a : α) (h : p a = true) : (l.filter p).count a = l.count a :=
  List.count_filter h

/-- Helper: across the enqueue loop, the enqueue-failure entries and the
harvested results together account for each domain at most as often as it
occurs among the valid domains. -/
theorem enqueue_count_bound (enqOk : Nat → Bool) (jobRes : Nat → Option String)
    (d : String) : ∀ (ds : List String) (i : Nat),
    ((enqueueFails enqOk i ds).map Prod.fst).count d
      + ((harvestJobs jobRes (enqueueJobs enqOk i ds)).map Prod.fst).count d
      ≤ ds.count d := by
  intro ds
  induction ds with
  | nil => intro i; simp [enqueueFails, enqueueJobs, harvestJobs]
  | cons d' ds ih =>
    intro i
    have h := ih (i + 1)
    by_cases he : enqOk i
    · cases hr : jobRes i with
      | some s =>
        simp [enqueueFails, enqueueJobs, harvestJobs, he, hr, List.count_cons] at h ⊢
        by_cases hdd : d' = d <;> simp [hdd] <;> omega
      | none =>
        simp [enqueueFails, enqueueJobs, harvestJobs, he, hr, List.count_cons] at h ⊢
        by_cases hdd : d' = d <;> simp [hdd] <;> omega
    · simp [enqueueFails, enqueueJobs, harvestJobs, he, List.count_cons] at h ⊢
      by_cases hdd : d' = d <;> simp [hdd] <;> omega

/-- Helper: a valid domain whose enqueue failed after retries appears among
the enqueue-failure entries with status "unknown". -/
theorem enqueueFails_mem (enqOk : Nat → Bool) :
    ∀ (ds : List String) (j i : Nat) (d : String),
    ds[i]? = some d → enqOk (j + i) = false →
    (d, "unknown") ∈ enqueueFails enqOk j ds := by
  intro ds
  induction ds with
  | nil => intro j i d hget; simp at hget
  | cons d' ds ih =>
    intro j i d hget hee
    cases i with
    | zero =>
      simp at hget
      subst hget
      simp only [enqueueFails]
      rw [if_neg (by simpa using hee)]
      exact List.mem_cons_self _ _
    | succ i =>
      simp at hget
      have hee' : enqOk ((j + 1) + i) = false := by
        have : (j + 1) + i = j + (i + 1) := by omega
        rw [this]; exact hee
      have hm := ih (j + 1) i d (by simpa using hget) hee'
      simp only [enqueueFails]
      split_ifs with he
      · exact hm
      · exact List.mem_cons_of_mem _ hm

/-- Helper: if no job at all could be enqueued, every valid domain got an
enqueue-failure entry. -/
theorem enqueueFails_of_jobs_nil (enqOk : Nat → Bool) :
    ∀ (ds : List String) (j : Nat), enqueueJobs enqOk j ds = [] →
    (enqueueFails enqOk j ds).map Prod.fst = ds := by
  intro ds
  induction ds with
  | nil => intro j _; simp [enqueueFails]
  | cons d' ds ih =>
    intro j hjobs
    by_cases he : enqOk j
    · simp [enqueueJobs, he] at hjobs
    · simp only [enqueueJobs, enqueueFails] at *
      rw [if_neg (by simpa using he)] at hjobs ⊢
      simp [ih (j + 1) hjobs]

/-- Helper: under distinct valid domains, a domain whose job was enqueued
never appears among the enqueue-failure entries. -/
theorem enqueueFails_count_zero (enqOk : Nat → Bool) (jobRes : Nat → Option String) :
    ∀ (ds : List String) (j i : Nat) (d : String), ds.Nodup →
    ds[i]? = some d → enqOk (j + i) = true →
    ((enqueueFails enqOk j ds).map Prod.fst).count d = 0 := by
  intro ds
  induction ds with
  | nil => intro j i d _ hget; simp at hget
  | cons d' ds ih =>
    intro j i d hnd hget hee
    cases i with
    | zero =>
      simp at hget
      subst hget
      simp only [enqueueFails]
      rw [if_pos (by simpa using hee)]
      have hnm : d' ∉ ds := by simp at hnd; exact hnd.1
      have hb := enqueue_count_bound enqOk jobRes d' ds (j + 1)
      have hz : ds.count d' = 0 := List.count_eq_zero_of_not_mem hnm
      omega
    | succ i =>
      simp at hget
      have hd' : d' ≠ d := by
        intro heq
        subst heq
        simp at hnd
        exact hnd.1 (List.getElem?_mem (by simpa using hget))
      have hee' : enqOk ((j + 1) + i) = true := by
        have : (j + 1) + i = j + (i + 1) := by omega
        rw [this]; exact hee
      have hm := ih (j + 1) i d (by simp at hnd; exact hnd.2) (by simpa using hget) hee'
      simp only [enqueueFails]
      split_ifs with he
      · exact hm
      · simpa [List.count_cons, hd'] using hm

/-- Helper: under distinct valid domains, a domain whose job was not
harvested never appears among the harvested results. -/
theorem harvest_count_zero (enqOk : Nat → Bool) (jobRes : Nat → Option String) :
    ∀ (ds : List String) (j i : Nat) (d : String), ds.Nodup →
    ds[i]? = some d → jobRes (j + i) = none →
    ((harvestJobs jobRes (enqueueJobs enqOk j ds)).map Prod.fst).count d = 0 := by
  intro ds
  induction ds with
  | nil => intro j i d _ hget; simp at hget
  | cons d' ds ih =>
    intro j i d hnd hget hres
    cases i with
    | zero =>
      simp at hget
      subst hget
      have hnm : d' ∉ ds := by simp at hnd; exact hnd.1
      have hb := enqueue_count_bound enqOk jobRes d' ds (j + 1)
      have hz : ds.count d' = 0 := List.count_eq_zero_of_not_mem hnm
      by_cases he : enqOk j
      · simp only [enqueueJobs]
        rw [if_pos (by simpa using he)]
        simp only [harvestJobs, List.filterMap_cons]
        rw [show jobRes j = none from by simpa using hres]
        simp only [Option.map_none']
        have : ((harvestJobs jobRes (enqueueJobs enqOk (j + 1) ds)).map Prod.fst).count d' = 0 := by
          omega
        simpa [harvestJobs] using this
      · simp only [enqueueJobs]
        rw [if_neg (by simpa using he)]
        omega
    | succ i =>
      simp at hget
      have hd' : d' ≠ d := by
        intro heq
        subst heq
        simp at hnd
        exact hnd.1 (List.getElem?_mem (by simpa using hget))
      have hres' : jobRes ((j + 1) + i) = none := by
        have : (j + 1) + i = j + (i + 1) := by omega
        rw [this]; exact hres
      have hm := ih (j + 1) i d (by simp at hnd; exact hnd.2) (by simpa using hget) hres'
      by_cases he : enqOk j
      · simp only [enqueueJobs]
        rw [if_pos (by simpa using he)]
        simp only [harvestJobs, List.filterMap_cons]
        cases hr : jobRes j with
        | some s =>
          simp only [Option.map_some', List.map_cons, List.count_cons]
          simpa [harvestJobs, List.count_cons, hd'] using hm
        | none =>
          simp only [Option.map_none']
          simpa [harvestJobs] using hm
      · simp only [enqueueJobs]
        rw [if_neg (by simpa using he)]
        exact hm

/-- Helper: a domain whose enqueued job was harvested appears among the
harvested results. -/
theorem harvest_mem (enqOk : Nat → Bool) (jobRes : Nat → Option String) :
    ∀ (ds : List String) (j i : Nat) (d s : String),
    ds[i]? = some d → enqOk (j + i) = true → jobRes (j + i) = some s →
    (d, s) ∈ (harvestJobs jobRes (enqueueJobs enqOk j ds)) := by
  intro ds
  induction ds with
  | nil => intro j i d s hget; simp at hget
  | cons d' ds ih =>
    intro j i d s hget hee hres
    cases i with
    | zero =>
      simp at hget
      subst hget
      simp only [enqueueJobs]
      rw [if_pos (by simpa using hee)]
      simp only [harvestJobs, List.filterMap_cons]
      rw [show jobRes j = some s from by simpa using hres]
      exact List.mem_cons_self _ _
    | succ i =>
      simp at hget
      have hee' : enqOk ((j + 1) + i) = true := by
        have : (j + 1) + i = j + (i + 1) := by omega
        rw [this]; exact hee
      have hres' : jobRes ((j + 1) + i) = some s := by
        have : (j + 1) + i = j + (i + 1) := by omega
        rw [this]; exact hres
      have hm := ih (j + 1) i d s (by simpa using hget) hee' hres'
      by_cases he : enqOk j
      · simp only [enqueueJobs]
        rw [if_pos (by simpa using he)]
        simp only [harvestJobs, List.filterMap_cons]
        cases hr : jobRes j with
        | some s' =>
          exact List.mem_cons_of_mem _ (by simpa [harvestJobs] using hm)
        | none => simpa [harvestJobs] using hm
      · simp only [enqueueJobs]
        rw [if_neg (by simpa using he)]
        exact hm

/-- Helper: projecting the first components out of constant-status result
entries gives back the domain list. -/
theorem map_fst_map_pair (l : List String) (s : String) :
    ((l.map (fun x => (x, s))).map Prod.fst) = l := by
  induction l with
  | nil => rfl
  | cons x xs ih => simp [ih]

/-- Helper: for duplicate-free input and a positive deadline, every domain
occurs among the dispatcher's result keys exactly as often as in the input. -/
theorem enqueue_and_wait_count (enqOk : Nat → Bool) (jobRes : Nat → Option String)
    (timeout : Int) (domains : List String) (hnd : domains.Nodup)
    (ht : 0 < timeout) (d : String) :
    ((enqueue_and_wait enqOk jobRes timeout domains).map Prod.fst).count d
      = domains.count d := by
  by_cases hemp : domains.isEmpty
  · have h0 : domains = [] := by simpa using hemp
    subst h0
    simp [enqueue_and_wait]
  · simp only [enqueue_and_wait]
    rw [if_neg (by simpa using hemp)]
    have hVf : (filter_valid_domains domains).1 = domains.filter is_valid_domain := by
      simp [filter_valid_domains]
    have hIf : (filter_valid_domains domains).2
        = domains.filter (fun x => ! is_valid_domain x) := by
      simp only [filter_valid_domains, List.partition_eq_filter_filter]
      rfl
    have hVN : ((filter_valid_domains domains).1).Nodup := by
      rw [hVf]; exact hnd.filter _
    have hcountVI : ((filter_valid_domains domains).1).count d
        + ((filter_valid_domains domains).2).count d = domains.count d := by
      by_cases hv : is_valid_domain d
      · rw [hVf, hIf, List.count_filter hv, count_filter_neg _ _ _ (by simp [hv])]
        omega
      · rw [hVf, hIf, count_filter_neg _ _ _ (by simpa using hv),
          List.count_filter (by simpa using hv)]
        omega
    by_cases hVemp : ((filter_valid_domains domains).1).isEmpty
    · rw [if_pos hVemp]
      have hV0 : ((filter_valid_domains domains).1).count d = 0 := by
        have : (filter_valid_domains domains).1 = [] := by simpa using hVemp
        simp [this]
      rw [map_fst_map_pair]
      omega
    · rw [if_neg (by simpa using hVemp)]
      by_cases hjobs : (enqueueJobs enqOk 0 ((filter_valid_domains domains).1)).isEmpty
      · rw [if_pos (Or.inr hjobs)]
        have hfails := enqueueFails_of_jobs_nil enqOk ((filter_valid_domains domains).1) 0
          (by simpa using hjobs)
        simp only [List.map_append, List.count_append]
        rw [map_fst_map_pair, hfails]
        omega
      · rw [if_neg (by
          intro h
          rcases h with h1 | h2
          · omega
          · exact hjobs h2
          )]
        simp only [List.map_append, List.count_append, map_fst_map_pair]
        set V := (filter_valid_domains domains).1 with hV
        set I := (filter_valid_domains domains).2 with hI
        set mF := (enqueueFails enqOk 0 V).map Prod.fst with hmF
        set mH := (harvestJobs jobRes (enqueueJobs enqOk 0 V)).map Prod.fst with hmH
        have hbound := enqueue_count_bound enqOk jobRes d V 0
        rw [← hmF, ← hmH] at hbound
        by_cases hv : is_valid_domain d
        · have hI0 : I.count d = 0 := by
            rw [hIf]; exact count_filter_neg _ _ _ (by simp [hv])
          by_cases hmem : d ∈ (I ++ mF ++ mH)
          · have hpd : (fun x => decide ¬((I ++ mF ++ mH).contains x = true)) d
                = false := by
              simp only [decide_eq_false_iff_not, Decidable.not_not, List.contains,
                List.elem_eq_mem, decide_eq_true_eq]
              exact hmem
            rw [count_filter_neg (fun x => decide ¬((I ++ mF ++ mH).contains x = true))
              V d hpd]
            have h1 : 1 ≤ mF.count d + mH.count d := by
              rcases List.mem_append.mp hmem with h | h
              · rcases List.mem_append.mp h with h' | h'
                · exact absurd h' (List.not_mem_of_count_eq_zero hI0)
                · have := List.count_pos_iff.2 h'
                  omega
              · have := List.count_pos_iff.2 h
                omega
            have hVle : V.count d ≤ 1 := List.nodup_iff_count_le_one.1 hVN d
            omega
          · have hpd : (fun x => decide ¬((I ++ mF ++ mH).contains x = true)) d
                = true := by
              simp only [decide_eq_true_eq, List.contains, List.elem_eq_mem]
              simpa using hmem
            rw [count_filter_pos (fun x => decide ¬((I ++ mF ++ mH).contains x = true))
              V d hpd]
            have hF0 : mF.count d = 0 := List.count_eq_zero_of_not_mem
              (fun hm => hmem (List.mem_append.mpr (Or.inl
                (List.mem_append.mpr (Or.inr hm)))))
            have hH0 : mH.count d = 0 := List.count_eq_zero_of_not_mem
              (fun hm => hmem (List.mem_append.mpr (Or.inr hm)))
            omega
        · have hV0 : V.count d = 0 := by
            rw [hVf]; exact count_filter_neg _ _ _ (by simpa using hv)
          have hfill_le : (V.filter
              (fun x => decide ¬((I ++ mF ++ mH).contains x = true))).count d
              ≤ V.count d := (List.filter_sublist _).count_le d
          omega

/-- Helper: a valid domain whose enqueue succeeded contributes a job
carrying its index. -/
theorem enqueueJobs_mem (enqOk : Nat → Bool) :
    ∀ (ds : List String) (j i : Nat) (d : String),
    ds[i]? = some d → enqOk (j + i) = true →
    (j + i, d) ∈ enqueueJobs enqOk j ds := by
  intro ds
  induction ds with
  | nil => intro j i d hget; simp at hget
  | cons d' ds ih =>
    intro j i d hget hee
    cases i with
    | zero =>
      simp at hget
      subst hget
      simp only [enqueueJobs]
      rw [if_pos (by simpa using hee)]
      simpa using List.mem_cons_self _ _
    | succ i =>
      simp at hget
      have hee' : enqOk ((j + 1) + i) = true := by
        have : (j + 1) + i = j + (i + 1) := by omega
        rw [this]; exact hee
      have hm := ih (j + 1) i d (by simpa using hget) hee'
      have hco : ((j + 1) + i, d) = (j + (i + 1), d) := by
        have : (j + 1) + i = j + (i + 1) := by omega
        rw [this]
      rw [hco] at hm
      by_cases he : enqOk j
      · simp only [enqueueJobs]
        rw [if_pos (by simpa using he)]
        exact List.mem_cons_of_mem _ hm
      · simp only [enqueueJobs]
        rw [if_neg (by simpa using he)]
        exact hm

/-- Helper: an invalid input domain appears in the dispatcher result with
status "invalid". -/
theorem enqueue_and_wait_invalid_mem (enqOk : Nat → Bool)
    (jobRes : Nat → Option String) (timeout : Int) (domains : List String)
    (d : String) (hd : d ∈ domains) (hv : is_valid_domain d = false) :
    (d, "invalid") ∈ enqueue_and_wait enqOk jobRes timeout domains := by
  have hne : ¬ domains.isEmpty := by
    cases domains with
    | nil => simp at hd
    | cons x xs => simp
  have hmemI : d ∈ (filter_valid_domains domains).2 := by
    simp only [filter_valid_domains, List.partition_eq_filter_filter]
    exact List.mem_filter.mpr ⟨hd, by simp [hv]⟩
  have hmem0 : (d, "invalid")
      ∈ (filter_valid_domains domains).2.map (fun d => (d, "invalid")) :=
    List.mem_map.mpr ⟨d, hmemI, rfl⟩
  simp only [enqueue_and_wait]
  rw [if_neg (by simpa using hne)]
  by_cases hVemp : ((filter_valid_domains domains).1).isEmpty
  · rw [if_pos hVemp]
    exact hmem0
  · rw [if_neg (by simpa using hVemp)]
    by_cases hbr : timeout ≤ 0 ∨ (enqueueJobs enqOk 0 ((filter_valid_domains domains).1)).isEmpty
    · rw [if_pos hbr]
      exact List.mem_append.mpr (Or.inl hmem0)
    · rw [if_neg hbr]
      exact List.mem_append.mpr (Or.inl (List.mem_append.mpr (Or.inl
        (List.mem_append.mpr (Or.inl hmem0)))))

/-- Helper: a valid domain whose job could not be enqueued appears in the
dispatcher result with status "unknown". -/
theorem enqueue_and_wait_enqueue_failed_mem (enqOk : Nat → Bool)
    (jobRes : Nat → Option String) (timeout : Int) (domains : List String)
    (i : Nat) (d : String) (hget : ((filter_valid_domains domains).1)[i]? = some d)
    (he : enqOk i = false) :
    (d, "unknown") ∈ enqueue_and_wait enqOk jobRes timeout domains := by
  have hdV : d ∈ (filter_valid_domains domains).1 := List.getElem?_mem hget
  have hne : ¬ domains.isEmpty := by
    have : d ∈ domains := by
      have := hdV
      simp only [filter_valid_domains, List.partition_eq_filter_filter] at this
      exact (List.mem_filter.mp this).1
    cases domains with
    | nil => simp at this
    | cons x xs => simp
  have hVne : ¬ ((filter_valid_domains domains).1).isEmpty := by
    cases hV : (filter_valid_domains domains).1 with
    | nil => rw [hV] at hdV; simp at hdV
    | cons x xs => simp
  have hmemF : (d, "unknown") ∈ enqueueFails enqOk 0 ((filter_valid_domains domains).1) :=
    enqueueFails_mem enqOk ((filter_valid_domains domains).1) 0 i d hget
      (by simpa using he)
  simp only [enqueue_and_wait]
  rw [if_neg (by simpa using hne)]
  rw [if_neg hVne]
  by_cases hbr : timeout ≤ 0 ∨ (enqueueJobs enqOk 0 ((filter_valid_domains domains).1)).isEmpty
  · rw [if_pos hbr]
    exact List.mem_append.mpr (Or.inr hmemF)
  · rw [if_neg hbr]
    exact List.mem_append.mpr (Or.inl (List.mem_append.mpr (Or.inl
      (List.mem_append.mpr (Or.inr hmemF)))))

/-- Helper: with distinct inputs and a positive deadline, a valid domain
whose job was enqueued but never harvested is synthesized as "unknown" in
the dispatcher result. -/
theorem enqueue_and_wait_not_harvested_mem (enqOk : Nat → Bool)
    (jobRes : Nat → Option String) (timeout : Int) (domains : List String)
    (i : Nat) (d : String) (hnd : domains.Nodup) (ht : 0 < timeout)
    (hget : ((filter_valid_domains domains).1)[i]? = some d)
    (he : enqOk i = true) (hr : jobRes i = none) :
    (d, "unknown") ∈ enqueue_and_wait enqOk jobRes timeout domains := by
  have hVf : (filter_valid_domains domains).1 = domains.filter is_valid_domain := by
    simp [filter_valid_domains]
  have hIf : (filter_valid_domains domains).2
      = domains.filter (fun x => ! is_valid_domain x) := by
    simp only [filter_valid_domains, List.partition_eq_filter_filter]
    rfl
  have hVN : ((filter_valid_domains domains).1).Nodup := by
    rw [hVf]; exact hnd.filter _
  have hdV : d ∈ (filter_valid_domains domains).1 := List.getElem?_mem hget
  have hv : is_valid_domain d = true := by
    rw [hVf] at hdV
    exact (List.mem_filter.mp hdV).2
  have hne : ¬ domains.isEmpty := by
    have hdd : d ∈ domains := by
      rw [hVf] at hdV
      exact (List.mem_filter.mp hdV).1
    cases domains with
    | nil => simp at hdd
    | cons x xs => simp
  have hVne : ¬ ((filter_valid_domains domains).1).isEmpty := by
    cases hV : (filter_valid_domains domains).1 with
    | nil => rw [hV] at hdV; simp at hdV
    | cons x xs => simp
  have hjobsne : ¬ (enqueueJobs enqOk 0 ((filter_valid_domains domains).1)).isEmpty := by
    have hm := enqueueJobs_mem enqOk ((filter_valid_domains domains).1) 0 i d hget
      (by simpa using he)
    cases hJ : enqueueJobs enqOk 0 ((filter_valid_domains domains).1) with
    | nil => rw [hJ] at hm; simp at hm
    | cons x xs => simp
  have hI0 : ((filter_valid_domains domains).2).count d = 0 := by
    rw [hIf]
    exact count_filter_neg _ _ _ (by simp [hv])
  have hF0 : ((enqueueFails enqOk 0 ((filter_valid_domains domains).1)).map Prod.fst).count d = 0 :=
    enqueueFails_count_zero enqOk jobRes ((filter_valid_domains domains).1) 0 i d hVN
      hget (by simpa using he)
  have hH0 : ((harvestJobs jobRes (enqueueJobs enqOk 0 ((filter_valid_domains domains).1))).map Prod.fst).count d = 0 :=
    harvest_count_zero enqOk jobRes ((filter_valid_domains domains).1) 0 i d hVN
      hget (by simpa using hr)
  simp only [enqueue_and_wait]
  rw [if_neg (by simpa using hne)]
  rw [if_neg hVne]
  rw [if_neg (by
    intro h
    rcases h with h1 | h2
    · omega
    · exact hjobsne h2)]
  refine List.mem_append.mpr (Or.inr ?_)
  have hnotmem : d ∉ List.map Prod.fst
      (((filter_valid_domains domains).2.map (fun d => (d, "invalid"))
        ++ enqueueFails enqOk 0 ((filter_valid_domains domains).1))
        ++ harvestJobs jobRes (enqueueJobs enqOk 0 ((filter_valid_domains domains).1))) := by
    intro hmem
    rw [List.map_append, List.map_append, map_fst_map_pair] at hmem
    rcases List.mem_append.mp hmem with h | h
    · rcases List.mem_append.mp h with h' | h'
      · exact List.not_mem_of_count_eq_zero hI0 h'
      · exact List.not_mem_of_count_eq_zero hF0 h'
    · exact List.not_mem_of_count_eq_zero hH0 h
  refine List.mem_map.mpr ⟨d, List.mem_filter.mpr ⟨hdV, ?_⟩, rfl⟩
  simp only [decide_eq_true_eq, List.contains, List.elem_eq_mem]
  simpa using hnotmem

/-- C2 (amended): for every duplicate-free input list of candidate domains
(and the positive configured job timeout), `enqueue_and_wait` returns
exactly one status entry per input candidate — the result keys are a
permutation of the input, so nothing is dropped or reported twice — with
each validator-rejected domain reported as "invalid", and each valid domain
whose job could not be enqueued or was not harvested before the deadline
reported as "unknown". -/
theorem C2_dispatcher_exactly_one (enqOk : Nat → Bool) (jobRes : Nat → Option String)
    (timeout : Int) (domains : List String) (hnd : domains.Nodup) (ht : 0 < timeout) :
    ((enqueue_and_wait enqOk jobRes timeout domains).map Prod.fst).Perm domains
    ∧ (∀ d ∈ domains, is_valid_domain d = false →
        (d, "invalid") ∈ enqueue_and_wait enqOk jobRes timeout domains)
    ∧ (∀ (i : Nat) (d : String), ((filter_valid_domains domains).1)[i]? = some d →
        enqOk i = false →
        (d, "unknown") ∈ enqueue_and_wait enqOk jobRes timeout domains)
    ∧ (∀ (i : Nat) (d : String), ((filter_valid_domains domains).1)[i]? = some d →
        enqOk i = true → jobRes i = none →
        (d, "unknown") ∈ enqueue_and_wait enqOk jobRes timeout domains) :=
  ⟨List.perm_iff_count.mpr
      (fun a => enqueue_and_wait_count enqOk jobRes timeout domains hnd ht a),
    fun d hd hv => enqueue_and_wait_invalid_mem enqOk jobRes timeout domains d hd hv,
    fun i d hget he =>
      enqueue_and_wait_enqueue_failed_mem enqOk jobRes timeout domains i d hget he,
    fun i d hget he hr =>
      enqueue_and_wait_not_harvested_mem enqOk jobRes timeout domains i d hnd ht
        hget he hr⟩

/-- Counterexample to C2 as stated: with the same valid candidate listed
twice, both jobs are enqueued but only the first is harvested; the second
falls through to the fill step, which sees the domain as already processed,
so only one entry comes back for two input candidates (the result keys are
not a permutation of the input). -/
theorem C2_counterexample :
    (enqueue_and_wait allEnqOk exJobFirstFree 30 ["ab.com", "ab.com"]).length = 1
    ∧ ¬ (((enqueue_and_wait allEnqOk exJobFirstFree 30
        ["ab.com", "ab.com"]).map Prod.fst).Perm ["ab.com", "ab.com"]) := by
  refine ⟨by decide, fun h => absurd h.length_eq (by decide)⟩

/-- Witness for C2 (amended) at a concrete input: three distinct candidates
(one invalid, one whose enqueue fails) come back as exactly one entry each
with the specified statuses. -/
theorem C2_dispatcher_exactly_one_witness :
    (["ab.com", "бад.com", "xy.com"] : List String).Nodup
    ∧ (0 : Int) < 30
    ∧ ((enqueue_and_wait exEnqFirstOnly exJobAllFree 30
        ["ab.com", "бад.com", "xy.com"]).map Prod.fst).Perm
        ["ab.com", "бад.com", "xy.com"]
    ∧ ("бад.com", "invalid") ∈ enqueue_and_wait exEnqFirstOnly exJobAllFree 30
        ["ab.com", "бад.com", "xy.com"]
    ∧ ("xy.com", "unknown") ∈ enqueue_and_wait exEnqFirstOnly exJobAllFree 30
        ["ab.com", "бад.com", "xy.com"] := by
  have hthm := C2_dispatcher_exactly_one exEnqFirstOnly exJobAllFree 30
    ["ab.com", "бад.com", "xy.com"] (by decide) (by decide)
  exact ⟨by decide, by decide, hthm.1,
    hthm.2.1 "бад.com" (by decide) (by decide),
    hthm.2.2.1 1 "xy.com" (by decide) (by decide)⟩
